import Mathlib

/-!
A shallow embedding of the data-load pipeline of `src/tp1_3_2.py` (repository
TP1-BD): the streaming record parser, the per-record entity extractor with
run-scoped deduplication sets, the batched flush engine with savepoint
fallback, and the post-load cleanup statements.

Modelling conventions:
* Python strings are Lean `String`s; the Python string operations used by the
  source (`strip`, `split`, `startswith`, `lower`, `rsplit`, `rstrip`,
  `isdigit`, `int(...)`, `float(...)`) are re-implemented over `String.data`
  (`List Char`).  `str.isdigit` is modelled for ASCII digits, which is the
  only alphabet the input format uses.
* Python floats are modelled exactly as unnormalised decimals
  (`Flt`, mantissa/decimal-exponent); no claim depends on float rounding.
* The database is modelled as the ordered list of successfully executed
  insert statements (`LoadState.db`); the per-table conflict clauses
  (`ON CONFLICT ... DO UPDATE` / `DO NOTHING`) and the post-load `DELETE`
  statements are applied as queries over that list.
* A row-level insert failure is modelled by a predicate
  `fails : Table → Row → Bool`; `execute_batch` raises iff some row of the
  batch fails, and `ROLLBACK TO SAVEPOINT` restores the pre-batch database.
* `mainLoop` returns `none` exactly when the Python run would abort with an
  exception inside the file-processing loop (only possible source:
  `float(...)` on a malformed `avg rating` token).
-/

namespace TP1

/-! ## Python string primitives -/

/-- Whitespace as recognised by Python `str.strip()` / `str.split()` /
regex `\s` (ASCII subset used by the input format). -/
def isSpacePy (c : Char) : Bool := c.isWhitespace

/-- Python `str.strip()` on a character list. -/
def stripChars (cs : List Char) : List Char :=
  ((cs.dropWhile isSpacePy).reverse.dropWhile isSpacePy).reverse

/-- Python `str.strip()`. -/
def pyStrip (s : String) : String := ⟨stripChars s.data⟩

/-- Python `s.startswith(p)`. -/
def startsWithPy (p s : String) : Bool := p.data.isPrefixOf s.data

/-- Python `s.lower()` (ASCII). -/
def toLowerPy (s : String) : String := ⟨s.data.map Char.toLower⟩

/-- Drop characters up to and including the first `:`; used to model
`line.split(":", 1)[1]` on lines guarded by a `startswith("xxx:")` check. -/
def afterFirstColon (cs : List Char) : List Char :=
  ((cs.dropWhile (fun c => !(c = ':'))).drop 1)

/-- Python `line.split(":", 1)[1].strip()`. -/
def afterColonStrip (s : String) : String := ⟨stripChars (afterFirstColon s.data)⟩

/-- Helper for `wsTokens`: accumulates the current (reversed) token. -/
def wsTokensAux (acc : List Char) : List Char → List (List Char)
  | [] => if acc.isEmpty then [] else [acc.reverse]
  | c :: cs =>
    if isSpacePy c then
      if acc.isEmpty then wsTokensAux [] cs else acc.reverse :: wsTokensAux [] cs
    else wsTokensAux (c :: acc) cs

/-- Whitespace tokenisation: Python `str.split()` — maximal runs of
non-whitespace characters, no empty tokens. -/
def wsTokens (cs : List Char) : List (List Char) := wsTokensAux [] cs

/-- Python `str.split()` returning `String`s. -/
def pySplitWs (s : String) : List String := (wsTokens s.data).map (⟨·⟩)

/-- Split on a separator character, keeping empty fields:
Python `str.split("|")` / `str.split(".")`. -/
def splitChar (sep : Char) : List Char → List (List Char)
  | [] => [[]]
  | c :: cs =>
    if c = sep then [] :: splitChar sep cs
    else
      match splitChar sep cs with
      | [] => [[c]]
      | t :: ts => (c :: t) :: ts

/-- Nonempty all-digits test: Python `str.isdigit()` (ASCII digits). -/
def pyIsDigit (cs : List Char) : Bool := !cs.isEmpty && cs.all Char.isDigit

/-- `str.isdigit()` on a `String`. -/
def pyIsDigitS (s : String) : Bool := pyIsDigit s.data

/-- Decimal value of a digit list. -/
def digitsToNat (cs : List Char) : Nat :=
  cs.foldl (fun n c => n * 10 + (c.toNat - 48)) 0

/-- `int(...)` applied to a digit string (`Nat` result). -/
def digitsVal (s : String) : Nat := digitsToNat s.data

/-- Python `int(str)`: optional surrounding whitespace, optional sign,
then one or more digits; `none` models `ValueError`. -/
def parseIntPy (s : String) : Option Int :=
  match stripChars s.data with
  | '-' :: ds => if pyIsDigit ds then some (-(digitsToNat ds : Int)) else none
  | '+' :: ds => if pyIsDigit ds then some ((digitsToNat ds : Int)) else none
  | ds => if pyIsDigit ds then some ((digitsToNat ds : Int)) else none

/-- `_normalize_int` from the source, applied to a string value with the
default `0`: `int(value)` with `ValueError`/`TypeError` mapped to `0`. -/
def normalizeInt (s : String) : Int := (parseIntPy s).getD 0

/-- Exact decimal: `mant / 10 ^ fexp`.  Models the Python floats the loader
actually builds (tokens matched by `[\d\.]+`). -/
structure Flt where
  mant : Int
  fexp : Nat
deriving DecidableEq, Repr

instance : DecidableEq (String × String × String × Int × Int × Int × Flt) :=
  fun a b => instDecidableEqProd a b

/-- Python `float(tok)` for a token drawn from the character class `[\d\.]+`:
at most one dot, not a lone dot; `none` models `ValueError` (which is fatal in
the source, because the call is not guarded by a local handler). -/
def pyFloatTok (cs : List Char) : Option Flt :=
  match splitChar '.' cs with
  | [ds] => some ⟨(digitsToNat ds : Int), 0⟩
  | [ip, fp] =>
    if ip.isEmpty && fp.isEmpty then none
    else some ⟨(digitsToNat ip : Int) * (10 : Int) ^ fp.length + (digitsToNat fp : Int), fp.length⟩
  | _ => none

/-- Python `str.rstrip("]")`: drop every trailing `]`. -/
def rstripRBrack (cs : List Char) : List Char :=
  (cs.reverse.dropWhile (fun c => c = ']')).reverse

/-- Python `seg.rsplit("[", 1)` when `"[" in seg`: split at the last `[`.
`none` when the segment contains no `[`. -/
def rsplitLBrack (cs : List Char) : Option (List Char × List Char) :=
  let r := cs.reverse
  let post := r.takeWhile (fun c => !(c = '['))
  if post.length = r.length then none
  else some (((r.drop (post.length + 1)).reverse), post.reverse)

/-! ## Review-line grammar (`REVIEW_PATTERN`)

`^(\d{4}-\d{1,2}-\d{1,2})\s+(?:customer|cutomer):\s*(\S+)\s+rating:\s*(\d+)
\s+votes:\s*(\d+)\s+helpful:\s*(\d+)$` with `re.IGNORECASE`, applied to the
stripped line.  Every quantifier in the pattern is fed by a character class
disjoint from the literal that follows it, so greedy matching without
backtracking is equivalent. -/

/-- Greedy `\d{1,2}`. -/
def takeDigits1to2 : List Char → Option (List Char × List Char)
  | [] => none
  | [a] => if a.isDigit then some ([a], []) else none
  | a :: b :: rest =>
    if a.isDigit then
      if b.isDigit then some ([a, b], rest) else some ([a], b :: rest)
    else none

/-- Case-insensitive literal match (the literal is given lowercase);
returns the remainder. -/
def matchLitCI (lit : List Char) (cs : List Char) : Option (List Char) :=
  if (cs.take lit.length).map Char.toLower = lit then some (cs.drop lit.length)
  else none

/-- `\s+` then remainder. -/
def matchSpaces1 (cs : List Char) : Option (List Char) :=
  let sp := cs.takeWhile isSpacePy
  if sp.isEmpty then none else some (cs.drop sp.length)

/-- `\s*` then `(\d+)`: the digit group and the remainder. -/
def matchSpacedDigits (cs : List Char) : Option (List Char × List Char) :=
  let cs := cs.dropWhile isSpacePy
  let ds := cs.takeWhile Char.isDigit
  if ds.isEmpty then none else some (ds, cs.drop ds.length)

/-- One parsed review entry (`_parse_review_line` result).  The numeric
fields are already normalised integers, as in the source. -/
structure ReviewEntry where
  date : String
  customer : String
  rating : Int
  votes : Int
  helpful : Int
deriving DecidableEq, Repr

/-- `\d{4}-\d{1,2}-\d{1,2}`: the matched date text and the remainder. -/
def parseDatePart (cs : List Char) : Option (List Char × List Char) :=
  let y := cs.take 4
  if y.length = 4 && y.all Char.isDigit then
    match cs.drop 4 with
    | '-' :: cs1 =>
      match takeDigits1to2 cs1 with
      | some (mo, cs2) =>
        match cs2 with
        | '-' :: cs3 =>
          match takeDigits1to2 cs3 with
          | some (dy, cs4) => some (y ++ '-' :: mo ++ '-' :: dy, cs4)
          | none => none
        | _ => none
      | none => none
    | _ => none
  else none

/-- `\s+(?:customer|cutomer):\s*(\S+)`: the customer group and remainder. -/
def parseCustPart (cs : List Char) : Option (List Char × List Char) :=
  match matchSpaces1 cs with
  | none => none
  | some cs1 =>
    let afterKw :=
      match matchLitCI "customer:".data cs1 with
      | some r => some r
      | none => matchLitCI "cutomer:".data cs1
    match afterKw with
    | none => none
    | some cs2 =>
      let cs3 := cs2.dropWhile isSpacePy
      let cust := cs3.takeWhile (fun c => !isSpacePy c)
      if cust.isEmpty then none else some (cust, cs3.drop cust.length)

/-- `\s+<key>\s*(\d+)` (case-insensitive key): digit group and remainder. -/
def parseNumField (key : List Char) (cs : List Char) : Option (List Char × List Char) :=
  match matchSpaces1 cs with
  | none => none
  | some cs1 =>
    match matchLitCI key cs1 with
    | none => none
    | some cs2 => matchSpacedDigits cs2

/-- `_parse_review_line`: match `REVIEW_PATTERN` against the stripped raw
line; `none` when the pattern does not match. -/
def parseReviewLine (raw : String) : Option ReviewEntry :=
  match parseDatePart (stripChars raw.data) with
  | none => none
  | some (dt, cs) =>
    match parseCustPart cs with
    | none => none
    | some (cust, cs1) =>
      match parseNumField "rating:".data cs1 with
      | none => none
      | some (rat, cs2) =>
        match parseNumField "votes:".data cs2 with
        | none => none
        | some (vot, cs3) =>
          match parseNumField "helpful:".data cs3 with
          | none => none
          | some (hel, cs4) =>
            if cs4.isEmpty then
              some ⟨⟨dt⟩, ⟨cust⟩, (digitsToNat rat : Int),
                    (digitsToNat vot : Int), (digitsToNat hel : Int)⟩
            else none

/-! ## `re.search` helpers for the `reviews:` header line -/

/-- `re.search(key + "\s*(\d+)", line)`: first position where the literal key
is followed by optional whitespace and at least one digit. -/
def searchKeyNum (key : List Char) : List Char → Option Nat
  | [] => none
  | c :: cs =>
    if key.isPrefixOf (c :: cs) then
      let rest := ((c :: cs).drop key.length).dropWhile isSpacePy
      let ds := rest.takeWhile Char.isDigit
      if ds.isEmpty then searchKeyNum key cs else some (digitsToNat ds)
    else searchKeyNum key cs

/-- `re.search(r"avg rating:\s*([\d\.]+)", line)`: the matched token. -/
def searchAvgTok : List Char → Option (List Char)
  | [] => none
  | c :: cs =>
    if "avg rating:".data.isPrefixOf (c :: cs) then
      let rest := ((c :: cs).drop 11).dropWhile isSpacePy
      let ds := rest.takeWhile (fun d => d.isDigit || d = '.')
      if ds.isEmpty then searchAvgTok cs else some ds
    else searchAvgTok cs

/-! ## Destination tables and rows

One constructor per destination table, in the insertion order of the
`INSERT_STATEMENTS` dict of the source (which is also the order of the final
flush loop, since Python dicts preserve insertion order). -/

inductive Table
  | product
  | category
  | product_category
  | customer
  | review
  | product_similar
deriving DecidableEq, Repr

/-- One parameter tuple as buffered for its destination table, with the
column layout of the corresponding `SQL_INSERT_*` statement. -/
inductive Row
  | product (asin title group_name : String)
      (salesrank total_reviews downloaded : Int) (avg_rating : Flt)
  | category (category_id : Int) (category_name : String) (parent_id : Option Int)
  | product_category (asin : String) (category_id : Int)
  | customer (customer_id : String)
  | review (review_date : String) (rating votes helpful : Int)
      (asin customer_id : String)
  | similar (asin similar_asin : String)
deriving DecidableEq, Repr

/-- A per-table association (the source's `Dict[str, ...]` keyed by table). -/
structure TableMap (α : Type) where
  product : α
  category : α
  product_category : α
  customer : α
  review : α
  product_similar : α
deriving DecidableEq, Repr

def TableMap.get (m : TableMap α) : Table → α
  | .product => m.product
  | .category => m.category
  | .product_category => m.product_category
  | .customer => m.customer
  | .review => m.review
  | .product_similar => m.product_similar

def TableMap.set (m : TableMap α) : Table → α → TableMap α
  | .product, v => { m with product := v }
  | .category, v => { m with category := v }
  | .product_category, v => { m with product_category := v }
  | .customer, v => { m with customer := v }
  | .review, v => { m with review := v }
  | .product_similar, v => { m with product_similar := v }

def tableMapConst (v : α) : TableMap α := ⟨v, v, v, v, v, v⟩

/-- `BATCH_SIZE` from the source. -/
def BATCH_SIZE : Nat := 5000

/-- The mutable load-time state: per-table buffers and running counts, the
database (ordered list of successfully executed inserts, each tagged with its
table), the trace of every buffer append (`appends`, used to state run-wide
properties; appends are never removed, unlike buffer contents), and the six
run-scoped deduplication sets (modelled as lists). -/
structure LoadState where
  buffers : TableMap (List Row)
  counts : TableMap Nat
  db : List (Table × Row)
  appends : List (Table × Row)
  insProducts : List String
  insCategories : List Int
  insCustomers : List String
  insProductCategories : List (String × Int)
  insSimilars : List (String × String)
  insReviews : List (String × String × String)
deriving Repr, DecidableEq

def initState : LoadState :=
  { buffers := tableMapConst []
    counts := tableMapConst 0
    db := []
    appends := []
    insProducts := []
    insCategories := []
    insCustomers := []
    insProductCategories := []
    insSimilars := []
    insReviews := [] }

/-- Abstract row-failure model: `fails t r = true` iff executing the insert
statement of table `t` with parameter tuple `r` raises. -/
abbrev FailModel := Table → Row → Bool

def noFail : FailModel := fun _ _ => false

/-- The `_flush` closure built by `_create_flush_function`.  An empty buffer
is a no-op.  Otherwise: `execute_batch` raises iff some row of the batch
fails; on failure the batch savepoint rollback restores the pre-batch
database and each row is retried individually under its own savepoint, so
exactly the non-failing rows are inserted.  `inserted_now` is added to the
table's running count and the buffer is cleared.  (The `thresholds` /
`flush_counters` dicts of the source only drive progress logging and
savepoint naming and are not modelled.) -/
def flushTable (fails : FailModel) (t : Table) (s : LoadState) : LoadState :=
  let batch := s.buffers.get t
  if batch.isEmpty then s
  else
    let persisted :=
      if batch.any (fun r => fails t r) then batch.filter (fun r => !(fails t r))
      else batch
    { s with
      db := s.db ++ persisted.map (fun r => (t, r))
      counts := s.counts.set t (s.counts.get t + persisted.length)
      buffers := s.buffers.set t [] }

/-- `_queue_with_flush`: append the tuple to the table's buffer (recorded in
the `appends` trace) and flush that table once its buffer reaches
`BATCH_SIZE`. -/
def queueWithFlush (fails : FailModel) (t : Table) (r : Row) (s : LoadState) : LoadState :=
  let s1 := { s with
    buffers := s.buffers.set t (s.buffers.get t ++ [r])
    appends := s.appends ++ [(t, r)] }
  if BATCH_SIZE ≤ (s1.buffers.get t).length then flushTable fails t s1 else s1

/-! ## Parsed product records -/

/-- The `product_data` dict under construction (`_new_product_data` layout).
Category paths are lists of `(name, id-string)` segment pairs. -/
structure ProductData where
  asin : Option String
  title : Option String
  group : Option String
  salesrank : Option Int
  total_reviews : Option Int
  downloaded : Option Int
  avg_rating : Option Flt
  categories : List (List (String × String))
  similar : List String
  reviews : List ReviewEntry
deriving Repr

/-- `_new_product_data`. -/
def newProductData : ProductData :=
  { asin := none, title := none, group := none, salesrank := none
    total_reviews := none, downloaded := none, avg_rating := none
    categories := [], similar := [], reviews := [] }

/-- `_ensure_product_defaults`: `None` for a record with a falsy `asin`;
otherwise the full parameter tuple with `title`/`group` defaulted when falsy
and the numeric fields normalised with default `0`. -/
def ensureProductDefaults (p : ProductData) :
    Option (String × String × String × Int × Int × Int × Flt) :=
  match p.asin with
  | none => none
  | some a =>
    if a.isEmpty then none
    else
      let title := match p.title with
        | none => "Unknown title"
        | some t => if t.isEmpty then "Unknown title" else t
      let group_name := match p.group with
        | none => "Unknown"
        | some g => if g.isEmpty then "Unknown" else g
      some (a, title, group_name, p.salesrank.getD 0, p.total_reviews.getD 0,
            p.downloaded.getD 0, p.avg_rating.getD ⟨0, 0⟩)

/-- `int(parent_raw) if isinstance(parent_raw, str) and parent_raw.isdigit()
else None`, where `parent_raw` is the previous segment's id string (`none`
for the first segment of a path). -/
def parentOfPrev : Option String → Option Int
  | none => none
  | some pr => if pyIsDigitS pr then some ((digitsVal pr : Int)) else none

/-- One iteration of the `for idx, (cat_name, cat_id) in enumerate(path)`
loop of `_insert_product`: `prev` is the id string of the previous segment. -/
def stepSeg (fails : FailModel) (prev : Option String) (seg : String × String)
    (s : LoadState) : LoadState :=
  let parent_id := parentOfPrev prev
  match (if pyIsDigitS seg.2 then some ((digitsVal seg.2 : Int)) else none) with
  | none => s
  | some cv =>
    if cv ∈ s.insCategories then s
    else
      queueWithFlush fails .category (Row.category cv seg.1 parent_id)
        { s with insCategories := cv :: s.insCategories }

/-- The whole segment loop; the enumerate index is represented by threading
the previous segment's id string. -/
def processSegments (fails : FailModel) :
    Option String → List (String × String) → LoadState → LoadState
  | _, [], s => s
  | prev, seg :: rest, s =>
    processSegments fails (some seg.2) rest (stepSeg fails prev seg s)

/-- The leaf-link step at the end of one path iteration: link the path's
last segment to the product when its id is a digit string. -/
def queueLeafLink (fails : FailModel) (asin : String)
    (path : List (String × String)) (s : LoadState) : LoadState :=
  match path.getLast? with
  | none => s
  | some lastSeg =>
    match (if pyIsDigitS lastSeg.2 then some ((digitsVal lastSeg.2 : Int)) else none) with
    | none => s
    | some leaf_id =>
      if (asin, leaf_id) ∈ s.insProductCategories then s
      else
        queueWithFlush fails .product_category (Row.product_category asin leaf_id)
          { s with insProductCategories := (asin, leaf_id) :: s.insProductCategories }

/-- One iteration of the `for path in product_data.get("categories", [])`
loop: emit category rows for every segment, then link the path's leaf
category to the product. -/
def processPath (fails : FailModel) (asin : String)
    (path : List (String × String)) (s : LoadState) : LoadState :=
  if path.isEmpty then s
  else queueLeafLink fails asin path (processSegments fails none path s)

/-- The implicit-customer step of one review iteration. -/
def queueCustomer (fails : FailModel) (cust : String) (s : LoadState) : LoadState :=
  if cust ∈ s.insCustomers then s
  else
    queueWithFlush fails .customer (Row.customer cust)
      { s with insCustomers := cust :: s.insCustomers }

/-- The review-row step of one review iteration. -/
def queueReviewRow (fails : FailModel) (asin : String) (rev : ReviewEntry)
    (s : LoadState) : LoadState :=
  if rev.date.isEmpty then s
  else if (asin, rev.customer, rev.date) ∈ s.insReviews then s
  else
    queueWithFlush fails .review
      (Row.review rev.date rev.rating rev.votes rev.helpful asin rev.customer)
      { s with insReviews := (asin, rev.customer, rev.date) :: s.insReviews }

/-- One iteration of the `for rev in product_data.get("reviews", [])` loop.
The entry's numeric fields are already integers, so the source's repeated
`_normalize_int` is the identity on them. -/
def processReview (fails : FailModel) (asin : String) (rev : ReviewEntry)
    (s : LoadState) : LoadState :=
  if rev.customer.isEmpty then s
  else queueReviewRow fails asin rev (queueCustomer fails rev.customer s)

/-- One iteration of the `for sim in product_data.get("similar", [])` loop. -/
def processSimilar (fails : FailModel) (asin : String) (sim : String)
    (s : LoadState) : LoadState :=
  if sim.isEmpty then s
  else if (asin, sim) ∈ s.insSimilars then s
  else
    queueWithFlush fails .product_similar (Row.similar asin sim)
      { s with insSimilars := (asin, sim) :: s.insSimilars }

/-- The product-row step of `_insert_product`. -/
def queueProductRow (fails : FailModel)
    (tup : String × String × String × Int × Int × Int × Flt) (s : LoadState) : LoadState :=
  match tup with
  | (asin, title, group_name, salesrank, total_reviews, downloaded, avg_rating) =>
    if asin ∈ s.insProducts then s
    else
      queueWithFlush fails .product
        (Row.product asin title group_name salesrank total_reviews downloaded avg_rating)
        { s with insProducts := asin :: s.insProducts }

/-- `_insert_product`: derive and enqueue every row of one parsed record,
deduplicating against the run-scoped sets. -/
def insertProduct (fails : FailModel) (p : ProductData) (s : LoadState) : LoadState :=
  match ensureProductDefaults p with
  | none => s
  | some tup =>
    let asin := tup.1
    let s1 := queueProductRow fails tup s
    let s2 := p.categories.foldl (fun st path => processPath fails asin path st) s1
    let s3 := p.similar.foldl (fun st sim => processSimilar fails asin sim st) s2
    p.reviews.foldl (fun st rev => processReview fails asin rev st) s3

/-! ## The streaming record parser (`main` loop of the source) -/

/-- The `similar:` branch: whitespace-tokenize the line; with at least two
tokens, the second is the declared count `N` (normalised with default `0`);
with `N > 0` take the next `N` tokens, otherwise take every remaining token.
`none` when the line has fewer than two tokens (the record's `similar` field
is then left unchanged). -/
def parseSimilarFromParts (parts : List String) : Option (List String) :=
  match parts with
  | _ :: n :: toks =>
    let count_sim := normalizeInt n
    some (if 0 < count_sim then toks.take count_sim.toNat else toks)
  | _ => none

/-- One segment of a category path line: split at the last `[` when present
(stripping trailing `]` from the id part), else an empty id; the name is
stripped. -/
def parseSegment (seg : List Char) : String × String :=
  match rsplitLBrack seg with
  | some (nm, cid) => (pyStrip ⟨nm⟩, ⟨rstripRBrack cid⟩)
  | none => (pyStrip ⟨seg⟩, "")

/-- One (already stripped, nonempty) category path line: drop a single
leading `|`, split on `|`, discard empty segments, parse each segment. -/
def parsePathLine (cl : String) : List (String × String) :=
  let cs := match cl.data with
    | '|' :: rest => rest
    | other => other
  ((splitChar '|' cs).filter (fun seg => !seg.isEmpty)).map parseSegment

/-- The `reviews:` header line: `total:`, `downloaded:` and `avg rating:`
extracted by pattern search anywhere in the line, each `None` when absent.
The result is `none` exactly when `float(...)` on the matched avg-rating
token would raise (a fatal error in the source, since that call is only
covered by the whole-run handler). -/
def parseReviewStatsLine (line : String) :
    Option (Option Int × Option Int × Option Flt) :=
  let t := (searchKeyNum "total:".data line.data).map (fun n => (n : Int))
  let d := (searchKeyNum "downloaded:".data line.data).map (fun n => (n : Int))
  match searchAvgTok line.data with
  | none => some (t, d, none)
  | some tok =>
    match pyFloatTok tok with
    | none => none
    | some f => some (t, d, some f)

/-- Reader mode of the record parser.  `normal` is the per-line dispatch of
the `for raw_line in infile` loop; `readCats n` / `readRevs n` model being
inside the nested `infile.readline()` loops of the `categories:` /
`reviews:` branches with `n` lines still to consume.  Flattening the nested
loops into modes over the single line stream is exact: both consume the same
lines with the same handling, and end-of-stream simply ends consumption
(the inner loops `break` on EOF). -/
inductive Mode
  | normal
  | readCats (remaining : Nat)
  | readRevs (remaining : Nat)
deriving DecidableEq, Repr

/-- Advance a reader mode by one consumed line. -/
def Mode.next : Mode → Mode
  | .normal => .normal
  | .readCats n => if n ≤ 1 then .normal else .readCats (n - 1)
  | .readRevs n => if n ≤ 1 then .normal else .readRevs (n - 1)

/-- One line consumed in `readCats` mode: strip; an empty line only counts
the iteration; otherwise parse the path and append it when nonempty. -/
def consumeCatLine (raw : String) (p : ProductData) : ProductData :=
  let cl := pyStrip raw
  if cl.isEmpty then p
  else
    let path := parsePathLine cl
    if path.isEmpty then p else { p with categories := p.categories ++ [path] }

/-- One line consumed in `readRevs` mode: parse with `REVIEW_PATTERN`,
dropping lines that do not match. -/
def consumeRevLine (raw : String) (p : ProductData) : ProductData :=
  match parseReviewLine raw with
  | some e => { p with reviews := p.reviews ++ [e] }
  | none => p

/-- The per-line dispatch of the `main` loop for a non-blank, non-`Id:` line
while a record is open: the `elif` chain of the source.  These branches only
update the record under construction (and, for `categories:` / `reviews:`,
switch into a counted reader mode); none of them touches the load state.
`none` models the uncaught `float(...)` exception of the `reviews:` branch
(fatal for the run). -/
def dispatchLine (line : String) (p : ProductData) : Option (Mode × ProductData) :=
  if startsWithPy "ASIN:" line then
    some (Mode.normal, { p with asin := some (afterColonStrip line) })
  else if startsWithPy "title:" line then
    some (Mode.normal, { p with title := some (afterColonStrip line) })
  else if startsWithPy "discontinued product" (toLowerPy line) then
    some (Mode.normal, { p with title := some "Discontinued product" })
  else if startsWithPy "group:" line then
    some (Mode.normal, { p with group := some (afterColonStrip line) })
  else if startsWithPy "salesrank:" line then
    some (Mode.normal, { p with salesrank := some (normalizeInt (afterColonStrip line)) })
  else if startsWithPy "similar:" line then
    some (Mode.normal,
      match parseSimilarFromParts (pySplitWs line) with
      | none => p
      | some sims => { p with similar := sims })
  else if startsWithPy "categories:" line then
    let numPaths := match pySplitWs line with
      | _ :: n :: _ => (normalizeInt n).toNat
      | _ => 0
    some (if numPaths = 0 then Mode.normal else Mode.readCats numPaths, p)
  else if startsWithPy "reviews:" line then
    match parseReviewStatsLine line with
    | none => none
    | some (t, d, a) =>
      let numToRead := ((d.getD 0).toNat)
      some (if numToRead = 0 then Mode.normal else Mode.readRevs numToRead,
        { p with total_reviews := t, downloaded := d, avg_rating := a })
  else some (Mode.normal, p)

/-- The file-processing loop of `main`: consume the line stream, assembling
one record per `Id:` marker and feeding each completed record to
`_insert_product`; the final open record is inserted at end of stream.
`none` models the run aborting with an exception (malformed avg-rating
float). -/
def mainLoop (fails : FailModel) :
    List String → Mode → Option ProductData → LoadState → Option LoadState
  | [], _, pd, s =>
    some (match pd with | none => s | some p => insertProduct fails p s)
  | raw :: rest, Mode.readCats n, pd, s =>
    mainLoop fails rest (Mode.next (Mode.readCats n))
      (match pd with | none => none | some p => some (consumeCatLine raw p)) s
  | raw :: rest, Mode.readRevs n, pd, s =>
    mainLoop fails rest (Mode.next (Mode.readRevs n))
      (match pd with | none => none | some p => some (consumeRevLine raw p)) s
  | raw :: rest, Mode.normal, pd, s =>
    let line := pyStrip raw
    if line.isEmpty then mainLoop fails rest Mode.normal pd s
    else if startsWithPy "Id:" line then
      let s1 := match pd with | none => s | some p => insertProduct fails p s
      mainLoop fails rest Mode.normal (some newProductData) s1
    else
      match pd with
      | none => mainLoop fails rest Mode.normal none s
      | some p =>
        match dispatchLine line p with
        | none => none
        | some (m, p1) => mainLoop fails rest m (some p1) s

/-- The final flush loop `for table in INSERT_STATEMENTS: flush(table)`,
in the dict's insertion order. -/
def tableOrder : List Table :=
  [.product, .category, .product_category, .customer, .review, .product_similar]

def finalFlush (fails : FailModel) (s : LoadState) : LoadState :=
  tableOrder.foldl (fun st t => flushTable fails t st) s

/-- The whole load run on an input stream: the file-processing loop followed
by the final flush.  `none` models a fatal error inside the processing loop
(in which case neither the final flush nor the post-load statements run). -/
def runLoad (fails : FailModel) (lines : List String) : Option LoadState :=
  (mainLoop fails lines Mode.normal none initState).map (finalFlush fails)

/-! ## Final table contents (conflict clauses and post-load statements)

The `ON CONFLICT` clauses of the insert statements and the post-load
`DELETE` statements determine the final table contents as queries over the
ordered list of executed inserts.  The remaining `POST_LOAD_STATEMENTS`
(adding deferred foreign keys, creating indexes, `ANALYZE`) do not change
table contents. -/

/-- Keep the first element for each key (`ON CONFLICT ... DO NOTHING`). -/
def keepFirstByAux {κ : Type} [DecidableEq κ] (key : α → κ) :
    List α → List κ → List α
  | [], _ => []
  | x :: xs, seen =>
    if key x ∈ seen then keepFirstByAux key xs seen
    else x :: keepFirstByAux key xs (key x :: seen)

def keepFirstBy {κ : Type} [DecidableEq κ] (key : α → κ) (l : List α) : List α :=
  keepFirstByAux key l []

/-- Keep the last element for each key (`ON CONFLICT ... DO UPDATE`:
the latest insert wins). -/
def keepLastBy {κ : Type} [DecidableEq κ] (key : α → κ) (l : List α) : List α :=
  (keepFirstBy key l.reverse).reverse

/-- All executed product inserts, as `(asin, payload)` tuples. -/
def prodRows (db : List (Table × Row)) :
    List (String × String × String × Int × Int × Int × Flt) :=
  db.filterMap fun x =>
    match x with
    | (Table.product, Row.product a t g sr tr dl av) => some (a, t, g, sr, tr, dl, av)
    | _ => none

/-- The asins present in the final `product` table. -/
def prodAsins (db : List (Table × Row)) : List String :=
  (prodRows db).map (fun r => r.1)

/-- All executed category inserts, as `(id, name, parent)` tuples. -/
def catRows (db : List (Table × Row)) : List (Int × String × Option Int) :=
  db.filterMap fun x =>
    match x with
    | (Table.category, Row.category c n pid) => some (c, n, pid)
    | _ => none

/-- All executed `product_similar` inserts. -/
def simPairs (db : List (Table × Row)) : List (String × String) :=
  db.filterMap fun x =>
    match x with
    | (Table.product_similar, Row.similar a b) => some (a, b)
    | _ => none

/-- All executed `product_category` inserts. -/
def pcPairs (db : List (Table × Row)) : List (String × Int) :=
  db.filterMap fun x =>
    match x with
    | (Table.product_category, Row.product_category a c) => some (a, c)
    | _ => none

/-- Final `product` table (upsert keyed on `asin`, last insert wins). -/
def finalProductTable (db : List (Table × Row)) :
    List (String × String × String × Int × Int × Int × Flt) :=
  keepLastBy (fun r => r.1) (prodRows db)

/-- Final `category` table (upsert keyed on `category_id`, last wins). -/
def finalCategoryTable (db : List (Table × Row)) : List (Int × String × Option Int) :=
  keepLastBy (fun r => r.1) (catRows db)

/-- Final `product_similar` table: `DO NOTHING` dedup, then the post-load
`DELETE`s removing pairs whose endpoints are not product asins. -/
def finalSimilarTable (db : List (Table × Row)) : List (String × String) :=
  (keepFirstBy id (simPairs db)).filter
    (fun pr => decide (pr.1 ∈ prodAsins db) && decide (pr.2 ∈ prodAsins db))

/-- Final `product_category` table: `DO NOTHING` dedup, then the post-load
`DELETE`s removing links whose product or category is absent. -/
def finalProductCategoryTable (db : List (Table × Row)) : List (String × Int) :=
  (keepFirstBy id (pcPairs db)).filter
    (fun pr => decide (pr.1 ∈ prodAsins db) &&
      decide (pr.2 ∈ (catRows db).map (fun r => r.1)))

/-! ## Observations used to state run-wide properties -/

/-- The rows of one table within an insert/append list. -/
def tableTrace (t : Table) (l : List (Table × Row)) : List Row :=
  l.filterMap (fun x => if x.1 = t then some x.2 else none)

/-- Flow invariant: for every table, the rows already in the database
followed by the rows still buffered are exactly the rows ever appended
(holds throughout a run without insert failures). -/
def Flows (s : LoadState) : Prop :=
  ∀ t, tableTrace t s.db ++ s.buffers.get t = tableTrace t s.appends

/-- Logical key of a `product` append. -/
def keyProd : Table × Row → Option String
  | (Table.product, Row.product a _ _ _ _ _ _) => some a
  | _ => none

/-- Logical key of a `category` append. -/
def keyCat : Table × Row → Option Int
  | (Table.category, Row.category c _ _) => some c
  | _ => none

/-- Logical key of a `customer` append. -/
def keyCust : Table × Row → Option String
  | (Table.customer, Row.customer c) => some c
  | _ => none

/-- Logical key of a `product_category` append. -/
def keyPC : Table × Row → Option (String × Int)
  | (Table.product_category, Row.product_category a c) => some (a, c)
  | _ => none

/-- Logical key of a `product_similar` append. -/
def keySim : Table × Row → Option (String × String)
  | (Table.product_similar, Row.similar a b) => some (a, b)
  | _ => none

/-- Logical key of a `review` append: `(asin, customer_id, review_date)`. -/
def keyRev : Table × Row → Option (String × String × String)
  | (Table.review, Row.review d _ _ _ a c) => some (a, c, d)
  | _ => none

/-- Core of the deduplication invariant, over an append trace `ap` and the
six membership sets: for each table, the logical keys of the rows appended
so far are pairwise distinct and recorded in the corresponding set. -/
structure DedupCore (ap : List (Table × Row)) (sp : List String) (sc : List Int)
    (su : List String) (spc : List (String × Int)) (ss : List (String × String))
    (sr : List (String × String × String)) : Prop where
  pN : (ap.filterMap keyProd).Nodup
  pS : ∀ a ∈ ap.filterMap keyProd, a ∈ sp
  cN : (ap.filterMap keyCat).Nodup
  cS : ∀ c ∈ ap.filterMap keyCat, c ∈ sc
  uN : (ap.filterMap keyCust).Nodup
  uS : ∀ c ∈ ap.filterMap keyCust, c ∈ su
  pcN : (ap.filterMap keyPC).Nodup
  pcS : ∀ pr ∈ ap.filterMap keyPC, pr ∈ spc
  sN : (ap.filterMap keySim).Nodup
  sS : ∀ pr ∈ ap.filterMap keySim, pr ∈ ss
  rN : (ap.filterMap keyRev).Nodup
  rS : ∀ k ∈ ap.filterMap keyRev, k ∈ sr

/-- Deduplication invariant of a load state. -/
def DedupInv (s : LoadState) : Prop :=
  DedupCore s.appends s.insProducts s.insCategories s.insCustomers
    s.insProductCategories s.insSimilars s.insReviews

/-! ## Concrete input streams used in the claim analyses -/

/-- A record declaring itself as similar. -/
def streamSelfPair : List String := ["Id: 1", "ASIN: A", "similar: 1 A"]

/-- A record declaring similarity to a target never seen as a product. -/
def streamDangling : List String := ["Id: 1", "ASIN: A", "similar: 1 B"]

/-- A discontinued record with no group/salesrank/review statistics. -/
def streamDiscontinued : List String := ["Id: 1", "ASIN: A", "discontinued product"]

/-- Two records whose paths carry the same category id with two names. -/
def streamTwoNames : List String :=
  ["Id: 1", "ASIN: A", "categories: 1", "|Books[1]",
   "Id: 2", "ASIN: B", "categories: 1", "|Livros[1]"]

/-- A `similar:` line whose declared count token is non-numeric. -/
def streamNonNumericCount : List String := ["Id: 0", "ASIN: P", "similar: x A B"]

/-- One full record touching every destination table except similarity. -/
def streamFullRecord : List String :=
  ["Id: 0", "ASIN: X1", "title: T", "group: Book", "salesrank: 5",
   "categories: 1", "|Cat[10]", "reviews: total: 1 downloaded: 1 avg rating: 5",
   "2024-1-1 customer: C1 rating: 5 votes: 2 helpful: 1"]

/-- The round-trip record of the category-path analysis. -/
def streamRoundTrip : List String :=
  ["Id: 0", "ASIN: X", "categories: 1", "|Books[1]|Fiction[2]"]

/-- The state of a completed failure-free run (the runs used below all
complete, as their witnesses check). -/
def runLoadState (lines : List String) : LoadState :=
  (runLoad noFail lines).getD initState

/-- The state after the file-processing loop of a failure-free run. -/
def mainLoopState (lines : List String) : LoadState :=
  (mainLoop noFail lines Mode.normal none initState).getD initState

/-! ## Basic lemmas about the flush engine -/

lemma TableMap.get_set_self {α : Type} (m : TableMap α) (t : Table) (v : α) :
    (m.set t v).get t = v := by
  cases t <;> rfl

lemma TableMap.get_set_ne {α : Type} (m : TableMap α) (t t' : Table) (v : α)
    (h : t' ≠ t) : (m.set t v).get t' = m.get t' := by
  cases t <;> cases t' <;> first | rfl | exact absurd rfl h

lemma flushTable_appends (fails : FailModel) (t : Table) (s : LoadState) :
    (flushTable fails t s).appends = s.appends := by
  rw [flushTable]
  split <;> rfl

lemma flushTable_insProducts (fails : FailModel) (t : Table) (s : LoadState) :
    (flushTable fails t s).insProducts = s.insProducts := by
  rw [flushTable]; split <;> rfl

lemma flushTable_insCategories (fails : FailModel) (t : Table) (s : LoadState) :
    (flushTable fails t s).insCategories = s.insCategories := by
  rw [flushTable]; split <;> rfl

lemma flushTable_insCustomers (fails : FailModel) (t : Table) (s : LoadState) :
    (flushTable fails t s).insCustomers = s.insCustomers := by
  rw [flushTable]; split <;> rfl

lemma flushTable_insProductCategories (fails : FailModel) (t : Table) (s : LoadState) :
    (flushTable fails t s).insProductCategories = s.insProductCategories := by
  rw [flushTable]; split <;> rfl

lemma flushTable_insSimilars (fails : FailModel) (t : Table) (s : LoadState) :
    (flushTable fails t s).insSimilars = s.insSimilars := by
  rw [flushTable]; split <;> rfl

lemma flushTable_insReviews (fails : FailModel) (t : Table) (s : LoadState) :
    (flushTable fails t s).insReviews = s.insReviews := by
  rw [flushTable]; split <;> rfl

lemma flushTable_get_self (fails : FailModel) (t : Table) (s : LoadState) :
    (flushTable fails t s).buffers.get t = [] := by
  rw [flushTable]
  split
  · next h => simpa [List.isEmpty_iff] using h
  · exact TableMap.get_set_self _ _ _

lemma flushTable_get_ne (fails : FailModel) (t t' : Table) (s : LoadState)
    (h : t' ≠ t) : (flushTable fails t s).buffers.get t' = s.buffers.get t' := by
  rw [flushTable]
  split
  · rfl
  · exact TableMap.get_set_ne _ _ _ _ h

/-- The database effect of one flush, for an arbitrary failure model:
exactly the non-failing rows of the batch are appended, in order.  (When no
row fails this is the whole batch; an empty buffer appends nothing.) -/
lemma flushTable_db (fails : FailModel) (t : Table) (s : LoadState) :
    (flushTable fails t s).db =
      s.db ++ ((s.buffers.get t).filter (fun r => !(fails t r))).map (fun r => (t, r)) := by
  rw [flushTable]
  split
  · next h =>
    rw [List.isEmpty_iff] at h
    simp [h]
  · by_cases hany : (s.buffers.get t).any (fun r => fails t r)
    · simp [hany]
    · have : (s.buffers.get t).filter (fun r => !(fails t r)) = s.buffers.get t := by
        apply List.filter_eq_self.mpr
        intro r hr
        simp only [Bool.not_eq_true']
        exact Bool.not_eq_true _ ▸ (by
          have := List.any_eq_false.mp (by simpa using hany) r hr
          simpa using this)
      simp [hany, this]

lemma flushTable_counts_self (fails : FailModel) (t : Table) (s : LoadState) :
    (flushTable fails t s).counts.get t =
      s.counts.get t + ((s.buffers.get t).filter (fun r => !(fails t r))).length := by
  rw [flushTable]
  split
  · next h =>
    rw [List.isEmpty_iff] at h
    simp [h]
  · by_cases hany : (s.buffers.get t).any (fun r => fails t r)
    · simp [hany, TableMap.get_set_self]
    · have : (s.buffers.get t).filter (fun r => !(fails t r)) = s.buffers.get t := by
        apply List.filter_eq_self.mpr
        intro r hr
        have := List.any_eq_false.mp (by simpa using hany) r hr
        simpa using this
      simp [hany, this, TableMap.get_set_self]

lemma queueWithFlush_appends (fails : FailModel) (t : Table) (r : Row) (s : LoadState) :
    (queueWithFlush fails t r s).appends = s.appends ++ [(t, r)] := by
  rw [queueWithFlush]
  split
  · rw [flushTable_appends]
  · rfl

lemma queueWithFlush_insProducts (fails : FailModel) (t : Table) (r : Row) (s : LoadState) :
    (queueWithFlush fails t r s).insProducts = s.insProducts := by
  rw [queueWithFlush]
  split
  · rw [flushTable_insProducts]
  · rfl

lemma queueWithFlush_insCategories (fails : FailModel) (t : Table) (r : Row) (s : LoadState) :
    (queueWithFlush fails t r s).insCategories = s.insCategories := by
  rw [queueWithFlush]
  split
  · rw [flushTable_insCategories]
  · rfl

lemma queueWithFlush_insCustomers (fails : FailModel) (t : Table) (r : Row) (s : LoadState) :
    (queueWithFlush fails t r s).insCustomers = s.insCustomers := by
  rw [queueWithFlush]
  split
  · rw [flushTable_insCustomers]
  · rfl

lemma queueWithFlush_insProductCategories (fails : FailModel) (t : Table) (r : Row) (s : LoadState) :
    (queueWithFlush fails t r s).insProductCategories = s.insProductCategories := by
  rw [queueWithFlush]
  split
  · rw [flushTable_insProductCategories]
  · rfl

lemma queueWithFlush_insSimilars (fails : FailModel) (t : Table) (r : Row) (s : LoadState) :
    (queueWithFlush fails t r s).insSimilars = s.insSimilars := by
  rw [queueWithFlush]
  split
  · rw [flushTable_insSimilars]
  · rfl

lemma queueWithFlush_insReviews (fails : FailModel) (t : Table) (r : Row) (s : LoadState) :
    (queueWithFlush fails t r s).insReviews = s.insReviews := by
  rw [queueWithFlush]
  split
  · rw [flushTable_insReviews]
  · rfl

lemma queueWithFlush_get_ne (fails : FailModel) (t t' : Table) (r : Row) (s : LoadState)
    (h : t' ≠ t) : (queueWithFlush fails t r s).buffers.get t' = s.buffers.get t' := by
  rw [queueWithFlush]
  split
  · rw [flushTable_get_ne _ _ _ _ h]
    exact TableMap.get_set_ne _ _ _ _ h
  · exact TableMap.get_set_ne _ _ _ _ h

/-! ## Trace lemmas and the flow invariant -/

lemma tableTrace_append (t : Table) (l l' : List (Table × Row)) :
    tableTrace t (l ++ l') = tableTrace t l ++ tableTrace t l' := by
  simp [tableTrace, List.filterMap_append]

lemma tableTrace_map_self (t : Table) (l : List Row) :
    tableTrace t (l.map (fun r => (t, r))) = l := by
  induction l with
  | nil => rfl
  | cons r rs ih => simpa [tableTrace] using ih

lemma tableTrace_single (t t' : Table) (r : Row) :
    tableTrace t' [(t, r)] = if t = t' then [r] else [] := by
  by_cases h : t = t' <;> simp [tableTrace, h]

lemma mem_tableTrace (t : Table) (r : Row) (l : List (Table × Row)) :
    r ∈ tableTrace t l ↔ (t, r) ∈ l := by
  constructor
  · intro h
    obtain ⟨⟨t1, r1⟩, hx, hf⟩ := List.mem_filterMap.mp h
    split at hf
    · next heq => cases hf; exact heq ▸ hx
    · cases hf
  · intro h
    exact List.mem_filterMap.mpr ⟨(t, r), h, by simp⟩

lemma tableTrace_map_ne (t t' : Table) (h : ¬ t = t') (l : List Row) :
    tableTrace t' (l.map (fun r => (t, r))) = [] := by
  rw [tableTrace, List.filterMap_map]
  apply List.filterMap_eq_nil_iff.mpr
  intro r _
  simp [h]

lemma flows_flushTable (t : Table) (s : LoadState) (h : Flows s) :
    Flows (flushTable noFail t s) := by
  intro t'
  rw [flushTable_appends]
  have hdb : (flushTable noFail t s).db =
      s.db ++ (s.buffers.get t).map (fun r => (t, r)) := by
    simpa [noFail] using flushTable_db noFail t s
  by_cases ht : t' = t
  · subst ht
    rw [hdb, flushTable_get_self, tableTrace_append, tableTrace_map_self,
      List.append_nil]
    exact h t'
  · rw [hdb, flushTable_get_ne _ _ _ _ ht, tableTrace_append,
      tableTrace_map_ne t t' (fun hh => ht hh.symm), List.append_nil]
    exact h t'

lemma flows_queueWithFlush (t : Table) (r : Row) (s : LoadState) (h : Flows s) :
    Flows (queueWithFlush noFail t r s) := by
  have h1 : Flows { s with
      buffers := s.buffers.set t (s.buffers.get t ++ [r])
      appends := s.appends ++ [(t, r)] } := by
    intro t'
    simp only
    rw [tableTrace_append, tableTrace_single]
    by_cases ht : t' = t
    · subst ht
      rw [TableMap.get_set_self, if_pos rfl, ← List.append_assoc]
      exact congrArg (· ++ [r]) (h t')
    · rw [TableMap.get_set_ne _ _ _ _ ht, if_neg (fun hh => ht hh.symm), List.append_nil]
      exact h t'
  rw [queueWithFlush]
  split
  · exact flows_flushTable _ _ h1
  · exact h1

lemma foldl_preserve {α : Type} {P : LoadState → Prop} (f : LoadState → α → LoadState)
    (hf : ∀ st a, P st → P (f st a)) :
    ∀ (l : List α) (st : LoadState), P st → P (l.foldl f st) := by
  intro l
  induction l with
  | nil => intro st h; exact h
  | cons a as ih => intro st h; exact ih _ (hf st a h)

lemma flows_stepSeg (prev : Option String) (seg : String × String) (s : LoadState)
    (h : Flows s) : Flows (stepSeg noFail prev seg s) := by
  simp only [stepSeg]
  split
  · exact h
  · split
    · exact h
    · exact flows_queueWithFlush _ _ _ h

lemma flows_processSegments (prev : Option String) (path : List (String × String))
    (s : LoadState) (h : Flows s) : Flows (processSegments noFail prev path s) := by
  induction path generalizing prev s with
  | nil => exact h
  | cons seg rest ih => exact ih _ _ (flows_stepSeg prev seg s h)

lemma flows_queueLeafLink (asin : String) (path : List (String × String))
    (s : LoadState) (h : Flows s) : Flows (queueLeafLink noFail asin path s) := by
  simp only [queueLeafLink]
  split
  · exact h
  · split
    · exact h
    · split
      · exact h
      · exact flows_queueWithFlush _ _ _ h

lemma flows_processPath (asin : String) (path : List (String × String))
    (s : LoadState) (h : Flows s) : Flows (processPath noFail asin path s) := by
  simp only [processPath]
  split
  · exact h
  · exact flows_queueLeafLink asin path _ (flows_processSegments none path s h)

lemma flows_processSimilar (asin sim : String) (s : LoadState)
    (h : Flows s) : Flows (processSimilar noFail asin sim s) := by
  simp only [processSimilar]
  split
  · exact h
  · split
    · exact h
    · exact flows_queueWithFlush _ _ _ h

lemma flows_queueCustomer (cust : String) (s : LoadState)
    (h : Flows s) : Flows (queueCustomer noFail cust s) := by
  simp only [queueCustomer]
  split
  · exact h
  · exact flows_queueWithFlush _ _ _ h

lemma flows_queueReviewRow (asin : String) (rev : ReviewEntry) (s : LoadState)
    (h : Flows s) : Flows (queueReviewRow noFail asin rev s) := by
  simp only [queueReviewRow]
  split
  · exact h
  · split
    · exact h
    · exact flows_queueWithFlush _ _ _ h

lemma flows_processReview (asin : String) (rev : ReviewEntry) (s : LoadState)
    (h : Flows s) : Flows (processReview noFail asin rev s) := by
  simp only [processReview]
  split
  · exact h
  · exact flows_queueReviewRow asin rev _ (flows_queueCustomer rev.customer s h)

lemma flows_queueProductRow (tup : String × String × String × Int × Int × Int × Flt)
    (s : LoadState) (h : Flows s) : Flows (queueProductRow noFail tup s) := by
  obtain ⟨a, t, g, sr, tr, dl, av⟩ := tup
  simp only [queueProductRow]
  split
  · exact h
  · exact flows_queueWithFlush _ _ _ h

lemma flows_insertProduct (p : ProductData) (s : LoadState)
    (h : Flows s) : Flows (insertProduct noFail p s) := by
  simp only [insertProduct]
  split
  · exact h
  · apply foldl_preserve _ (fun st rev hst => flows_processReview _ rev st hst)
    apply foldl_preserve _ (fun st sim hst => flows_processSimilar _ sim st hst)
    apply foldl_preserve _ (fun st path hst => flows_processPath _ path st hst)
    exact flows_queueProductRow _ s h

/-- Preservation of a state predicate through the file-processing loop:
the only state transformer the loop applies is `_insert_product`. -/
lemma mainLoop_preserve (fails : FailModel) {P : LoadState → Prop}
    (hins : ∀ p s, P s → P (insertProduct fails p s)) :
    ∀ (lines : List String) (mode : Mode) (pd : Option ProductData) (s st : LoadState),
      mainLoop fails lines mode pd s = some st → P s → P st := by
  intro lines
  induction lines with
  | nil =>
    intro mode pd s st h hp
    cases pd with
    | none => simp only [mainLoop] at h; cases h; exact hp
    | some p => simp only [mainLoop] at h; cases h; exact hins p s hp
  | cons raw rest ih =>
    intro mode pd s st h hp
    cases mode with
    | readCats n =>
      simp only [mainLoop] at h
      exact ih _ _ _ _ h hp
    | readRevs n =>
      simp only [mainLoop] at h
      exact ih _ _ _ _ h hp
    | normal =>
      simp only [mainLoop] at h
      split at h
      · exact ih _ _ _ _ h hp
      · split at h
        · cases pd with
          | none => exact ih _ _ _ _ h hp
          | some p => exact ih _ _ _ _ h (hins _ _ hp)
        · cases pd with
          | none => exact ih _ _ _ _ h hp
          | some p =>
            have h2 : (match dispatchLine (pyStrip raw) p with
                | none => (none : Option LoadState)
                | some (m, p1) => mainLoop fails rest m (some p1) s) = some st := h
            cases hd : dispatchLine (pyStrip raw) p with
            | none => rw [hd] at h2; exact Option.noConfusion h2
            | some mp =>
              obtain ⟨m, p1⟩ := mp
              rw [hd] at h2
              exact ih _ _ _ _ h2 hp

lemma flushTable_get_pres_nil (fails : FailModel) (t t' : Table) (s : LoadState)
    (h : s.buffers.get t' = []) : (flushTable fails t s).buffers.get t' = [] := by
  by_cases ht : t' = t
  · subst ht; exact flushTable_get_self _ _ _
  · rw [flushTable_get_ne _ _ _ _ ht]; exact h

/-- After the final flush loop every buffer is empty. -/
lemma finalFlush_get (fails : FailModel) (s : LoadState) (t : Table) :
    (finalFlush fails s).buffers.get t = [] := by
  simp only [finalFlush, tableOrder, List.foldl_cons, List.foldl_nil]
  cases t <;>
    (repeat first
      | exact flushTable_get_self _ _ _
      | apply flushTable_get_pres_nil)

lemma flows_init : Flows initState := by
  intro t
  cases t <;> rfl

lemma flows_finalFlush (s : LoadState) (h : Flows s) : Flows (finalFlush noFail s) :=
  foldl_preserve _ (fun st t hst => flows_flushTable t st hst) tableOrder s h

/-- In a completed run without insert failures, the database insert list per
table coincides with the append trace: every appended row was eventually
executed, in order. -/
lemma runLoad_trace (lines : List String) (st : LoadState)
    (h : runLoad noFail lines = some st) (t : Table) :
    tableTrace t st.db = tableTrace t st.appends := by
  rw [runLoad] at h
  obtain ⟨st0, h0, rfl⟩ := Option.map_eq_some'.mp h
  have hfl : Flows st0 :=
    mainLoop_preserve noFail (fun p s hp => flows_insertProduct p s hp)
      lines Mode.normal none initState st0 h0 flows_init
  have hfl2 := flows_finalFlush st0 hfl t
  rw [finalFlush_get noFail st0 t, List.append_nil] at hfl2
  exact hfl2

/-! ## Preservation of the deduplication invariant -/

lemma filterMap_concat_none {α β : Type} (f : α → Option β) (l : List α) (x : α)
    (hx : f x = none) : (l ++ [x]).filterMap f = l.filterMap f := by
  simp [List.filterMap_append, hx]

lemma filterMap_concat_some {α β : Type} (f : α → Option β) (l : List α) (x : α)
    (b : β) (hx : f x = some b) : (l ++ [x]).filterMap f = l.filterMap f ++ [b] := by
  simp [List.filterMap_append, hx]

lemma nodup_concat {β : Type} (l : List β) (b : β) (h : l.Nodup) (hb : b ∉ l) :
    (l ++ [b]).Nodup := by
  rw [List.nodup_append]
  exact ⟨h, List.nodup_singleton b,
    fun x hx hxb => hb ((List.mem_singleton.mp hxb) ▸ hx)⟩

lemma mem_concat_subset {β : Type} {l : List β} {S : List β} {b c : β}
    (hS : ∀ y ∈ l, y ∈ S) (h : c ∈ l ++ [b]) : c ∈ b :: S := by
  rcases List.mem_append.mp h with h1 | h1
  · exact List.mem_cons_of_mem _ (hS c h1)
  · simp only [List.mem_singleton] at h1
    exact h1 ▸ List.mem_cons_self _ _

lemma subset_cons_of_subset {β : Type} {l : List β} {S : List β} {b : β}
    (hS : ∀ y ∈ l, y ∈ S) : ∀ y ∈ l, y ∈ b :: S :=
  fun y hy => List.mem_cons_of_mem _ (hS y hy)

lemma dedupCore_prod {ap sp sc su spc ss sr}
    (h : DedupCore ap sp sc su spc ss sr) (a t g : String) (x y z : Int) (v : Flt)
    (hm : a ∉ sp) :
    DedupCore (ap ++ [(Table.product, Row.product a t g x y z v)])
      (a :: sp) sc su spc ss sr := by
  obtain ⟨pN, pS, cN, cS, uN, uS, pcN, pcS, sN, sS, rN, rS⟩ := h
  have e0 : keyProd (Table.product, Row.product a t g x y z v) = some (a) := rfl
  have e1 : keyCat (Table.product, Row.product a t g x y z v) = none := rfl
  have e2 : keyCust (Table.product, Row.product a t g x y z v) = none := rfl
  have e3 : keyPC (Table.product, Row.product a t g x y z v) = none := rfl
  have e4 : keySim (Table.product, Row.product a t g x y z v) = none := rfl
  have e5 : keyRev (Table.product, Row.product a t g x y z v) = none := rfl
  refine ⟨?_, ?_, ?_, ?_, ?_, ?_, ?_, ?_, ?_, ?_, ?_, ?_⟩
  · rw [filterMap_concat_some _ _ _ _ e0]
    exact nodup_concat _ _ pN (fun hin => hm (pS a hin))
  · rw [filterMap_concat_some _ _ _ _ e0]
    exact fun c hc => mem_concat_subset pS hc
  · rwa [filterMap_concat_none _ _ _ e1]
  · rw [filterMap_concat_none _ _ _ e1]; exact cS
  · rwa [filterMap_concat_none _ _ _ e2]
  · rw [filterMap_concat_none _ _ _ e2]; exact uS
  · rwa [filterMap_concat_none _ _ _ e3]
  · rw [filterMap_concat_none _ _ _ e3]; exact pcS
  · rwa [filterMap_concat_none _ _ _ e4]
  · rw [filterMap_concat_none _ _ _ e4]; exact sS
  · rwa [filterMap_concat_none _ _ _ e5]
  · rw [filterMap_concat_none _ _ _ e5]; exact rS

lemma dedupCore_cat {ap sp sc su spc ss sr}
    (h : DedupCore ap sp sc su spc ss sr) (cv : Int) (n : String) (pid : Option Int)
    (hm : cv ∉ sc) :
    DedupCore (ap ++ [(Table.category, Row.category cv n pid)])
      sp (cv :: sc) su spc ss sr := by
  obtain ⟨pN, pS, cN, cS, uN, uS, pcN, pcS, sN, sS, rN, rS⟩ := h
  have e0 : keyProd (Table.category, Row.category cv n pid) = none := rfl
  have e1 : keyCat (Table.category, Row.category cv n pid) = some (cv) := rfl
  have e2 : keyCust (Table.category, Row.category cv n pid) = none := rfl
  have e3 : keyPC (Table.category, Row.category cv n pid) = none := rfl
  have e4 : keySim (Table.category, Row.category cv n pid) = none := rfl
  have e5 : keyRev (Table.category, Row.category cv n pid) = none := rfl
  refine ⟨?_, ?_, ?_, ?_, ?_, ?_, ?_, ?_, ?_, ?_, ?_, ?_⟩
  · rwa [filterMap_concat_none _ _ _ e0]
  · rw [filterMap_concat_none _ _ _ e0]; exact pS
  · rw [filterMap_concat_some _ _ _ _ e1]
    exact nodup_concat _ _ cN (fun hin => hm (cS cv hin))
  · rw [filterMap_concat_some _ _ _ _ e1]
    exact fun c hc => mem_concat_subset cS hc
  · rwa [filterMap_concat_none _ _ _ e2]
  · rw [filterMap_concat_none _ _ _ e2]; exact uS
  · rwa [filterMap_concat_none _ _ _ e3]
  · rw [filterMap_concat_none _ _ _ e3]; exact pcS
  · rwa [filterMap_concat_none _ _ _ e4]
  · rw [filterMap_concat_none _ _ _ e4]; exact sS
  · rwa [filterMap_concat_none _ _ _ e5]
  · rw [filterMap_concat_none _ _ _ e5]; exact rS

lemma dedupCore_cust {ap sp sc su spc ss sr}
    (h : DedupCore ap sp sc su spc ss sr) (c : String) (hm : c ∉ su) :
    DedupCore (ap ++ [(Table.customer, Row.customer c)])
      sp sc (c :: su) spc ss sr := by
  obtain ⟨pN, pS, cN, cS, uN, uS, pcN, pcS, sN, sS, rN, rS⟩ := h
  have e0 : keyProd (Table.customer, Row.customer c) = none := rfl
  have e1 : keyCat (Table.customer, Row.customer c) = none := rfl
  have e2 : keyCust (Table.customer, Row.customer c) = some (c) := rfl
  have e3 : keyPC (Table.customer, Row.customer c) = none := rfl
  have e4 : keySim (Table.customer, Row.customer c) = none := rfl
  have e5 : keyRev (Table.customer, Row.customer c) = none := rfl
  refine ⟨?_, ?_, ?_, ?_, ?_, ?_, ?_, ?_, ?_, ?_, ?_, ?_⟩
  · rwa [filterMap_concat_none _ _ _ e0]
  · rw [filterMap_concat_none _ _ _ e0]; exact pS
  · rwa [filterMap_concat_none _ _ _ e1]
  · rw [filterMap_concat_none _ _ _ e1]; exact cS
  · rw [filterMap_concat_some _ _ _ _ e2]
    exact nodup_concat _ _ uN (fun hin => hm (uS c hin))
  · rw [filterMap_concat_some _ _ _ _ e2]
    exact fun y hy => mem_concat_subset uS hy
  · rwa [filterMap_concat_none _ _ _ e3]
  · rw [filterMap_concat_none _ _ _ e3]; exact pcS
  · rwa [filterMap_concat_none _ _ _ e4]
  · rw [filterMap_concat_none _ _ _ e4]; exact sS
  · rwa [filterMap_concat_none _ _ _ e5]
  · rw [filterMap_concat_none _ _ _ e5]; exact rS

lemma dedupCore_pc {ap sp sc su spc ss sr}
    (h : DedupCore ap sp sc su spc ss sr) (a : String) (c : Int)
    (hm : (a, c) ∉ spc) :
    DedupCore (ap ++ [(Table.product_category, Row.product_category a c)])
      sp sc su ((a, c) :: spc) ss sr := by
  obtain ⟨pN, pS, cN, cS, uN, uS, pcN, pcS, sN, sS, rN, rS⟩ := h
  have e0 : keyProd (Table.product_category, Row.product_category a c) = none := rfl
  have e1 : keyCat (Table.product_category, Row.product_category a c) = none := rfl
  have e2 : keyCust (Table.product_category, Row.product_category a c) = none := rfl
  have e3 : keyPC (Table.product_category, Row.product_category a c) = some ((a, c)) := rfl
  have e4 : keySim (Table.product_category, Row.product_category a c) = none := rfl
  have e5 : keyRev (Table.product_category, Row.product_category a c) = none := rfl
  refine ⟨?_, ?_, ?_, ?_, ?_, ?_, ?_, ?_, ?_, ?_, ?_, ?_⟩
  · rwa [filterMap_concat_none _ _ _ e0]
  · rw [filterMap_concat_none _ _ _ e0]; exact pS
  · rwa [filterMap_concat_none _ _ _ e1]
  · rw [filterMap_concat_none _ _ _ e1]; exact cS
  · rwa [filterMap_concat_none _ _ _ e2]
  · rw [filterMap_concat_none _ _ _ e2]; exact uS
  · rw [filterMap_concat_some _ _ _ _ e3]
    exact nodup_concat _ _ pcN (fun hin => hm (pcS (a, c) hin))
  · rw [filterMap_concat_some _ _ _ _ e3]
    exact fun y hy => mem_concat_subset pcS hy
  · rwa [filterMap_concat_none _ _ _ e4]
  · rw [filterMap_concat_none _ _ _ e4]; exact sS
  · rwa [filterMap_concat_none _ _ _ e5]
  · rw [filterMap_concat_none _ _ _ e5]; exact rS

lemma dedupCore_sim {ap sp sc su spc ss sr}
    (h : DedupCore ap sp sc su spc ss sr) (a b : String)
    (hm : (a, b) ∉ ss) :
    DedupCore (ap ++ [(Table.product_similar, Row.similar a b)])
      sp sc su spc ((a, b) :: ss) sr := by
  obtain ⟨pN, pS, cN, cS, uN, uS, pcN, pcS, sN, sS, rN, rS⟩ := h
  have e0 : keyProd (Table.product_similar, Row.similar a b) = none := rfl
  have e1 : keyCat (Table.product_similar, Row.similar a b) = none := rfl
  have e2 : keyCust (Table.product_similar, Row.similar a b) = none := rfl
  have e3 : keyPC (Table.product_similar, Row.similar a b) = none := rfl
  have e4 : keySim (Table.product_similar, Row.similar a b) = some ((a, b)) := rfl
  have e5 : keyRev (Table.product_similar, Row.similar a b) = none := rfl
  refine ⟨?_, ?_, ?_, ?_, ?_, ?_, ?_, ?_, ?_, ?_, ?_, ?_⟩
  · rwa [filterMap_concat_none _ _ _ e0]
  · rw [filterMap_concat_none _ _ _ e0]; exact pS
  · rwa [filterMap_concat_none _ _ _ e1]
  · rw [filterMap_concat_none _ _ _ e1]; exact cS
  · rwa [filterMap_concat_none _ _ _ e2]
  · rw [filterMap_concat_none _ _ _ e2]; exact uS
  · rwa [filterMap_concat_none _ _ _ e3]
  · rw [filterMap_concat_none _ _ _ e3]; exact pcS
  · rw [filterMap_concat_some _ _ _ _ e4]
    exact nodup_concat _ _ sN (fun hin => hm (sS (a, b) hin))
  · rw [filterMap_concat_some _ _ _ _ e4]
    exact fun y hy => mem_concat_subset sS hy
  · rwa [filterMap_concat_none _ _ _ e5]
  · rw [filterMap_concat_none _ _ _ e5]; exact rS

lemma dedupCore_rev {ap sp sc su spc ss sr}
    (h : DedupCore ap sp sc su spc ss sr) (d : String) (x y z : Int) (a c : String)
    (hm : (a, c, d) ∉ sr) :
    DedupCore (ap ++ [(Table.review, Row.review d x y z a c)])
      sp sc su spc ss ((a, c, d) :: sr) := by
  obtain ⟨pN, pS, cN, cS, uN, uS, pcN, pcS, sN, sS, rN, rS⟩ := h
  have e0 : keyProd (Table.review, Row.review d x y z a c) = none := rfl
  have e1 : keyCat (Table.review, Row.review d x y z a c) = none := rfl
  have e2 : keyCust (Table.review, Row.review d x y z a c) = none := rfl
  have e3 : keyPC (Table.review, Row.review d x y z a c) = none := rfl
  have e4 : keySim (Table.review, Row.review d x y z a c) = none := rfl
  have e5 : keyRev (Table.review, Row.review d x y z a c) = some ((a, c, d)) := rfl
  refine ⟨?_, ?_, ?_, ?_, ?_, ?_, ?_, ?_, ?_, ?_, ?_, ?_⟩
  · rwa [filterMap_concat_none _ _ _ e0]
  · rw [filterMap_concat_none _ _ _ e0]; exact pS
  · rwa [filterMap_concat_none _ _ _ e1]
  · rw [filterMap_concat_none _ _ _ e1]; exact cS
  · rwa [filterMap_concat_none _ _ _ e2]
  · rw [filterMap_concat_none _ _ _ e2]; exact uS
  · rwa [filterMap_concat_none _ _ _ e3]
  · rw [filterMap_concat_none _ _ _ e3]; exact pcS
  · rwa [filterMap_concat_none _ _ _ e4]
  · rw [filterMap_concat_none _ _ _ e4]; exact sS
  · rw [filterMap_concat_some _ _ _ _ e5]
    exact nodup_concat _ _ rN (fun hin => hm (rS (a, c, d) hin))
  · rw [filterMap_concat_some _ _ _ _ e5]
    exact fun k hk => mem_concat_subset rS hk

/-- Transport `DedupCore` through `queueWithFlush`: flushing changes neither
the append trace nor the membership sets. -/
lemma dedupInv_queueWithFlush_iff (fails : FailModel) (t : Table) (r : Row)
    (s : LoadState) :
    DedupInv (queueWithFlush fails t r s) ↔
      DedupCore (s.appends ++ [(t, r)]) s.insProducts s.insCategories
        s.insCustomers s.insProductCategories s.insSimilars s.insReviews := by
  rw [DedupInv, queueWithFlush_appends, queueWithFlush_insProducts,
    queueWithFlush_insCategories, queueWithFlush_insCustomers,
    queueWithFlush_insProductCategories, queueWithFlush_insSimilars,
    queueWithFlush_insReviews]

lemma dedup_queueProductRow (fails : FailModel)
    (tup : String × String × String × Int × Int × Int × Flt) (s : LoadState)
    (h : DedupInv s) : DedupInv (queueProductRow fails tup s) := by
  obtain ⟨a, t, g, x, y, z, v⟩ := tup
  simp only [queueProductRow]
  split
  · exact h
  · next hm =>
    exact (dedupInv_queueWithFlush_iff _ _ _ _).mpr (dedupCore_prod h a t g x y z v hm)

lemma dedup_stepSeg (fails : FailModel) (prev : Option String) (seg : String × String)
    (s : LoadState) (h : DedupInv s) : DedupInv (stepSeg fails prev seg s) := by
  simp only [stepSeg]
  split
  · exact h
  · split
    · exact h
    · next hm =>
      exact (dedupInv_queueWithFlush_iff _ _ _ _).mpr (dedupCore_cat h _ _ _ hm)

lemma dedup_processSegments (fails : FailModel) (prev : Option String)
    (path : List (String × String)) (s : LoadState) (h : DedupInv s) :
    DedupInv (processSegments fails prev path s) := by
  induction path generalizing prev s with
  | nil => exact h
  | cons seg rest ih => exact ih _ _ (dedup_stepSeg fails prev seg s h)

lemma dedup_queueLeafLink (fails : FailModel) (asin : String)
    (path : List (String × String)) (s : LoadState) (h : DedupInv s) :
    DedupInv (queueLeafLink fails asin path s) := by
  simp only [queueLeafLink]
  split
  · exact h
  · split
    · exact h
    · split
      · exact h
      · next hm =>
        exact (dedupInv_queueWithFlush_iff _ _ _ _).mpr (dedupCore_pc h _ _ hm)

lemma dedup_processPath (fails : FailModel) (asin : String)
    (path : List (String × String)) (s : LoadState) (h : DedupInv s) :
    DedupInv (processPath fails asin path s) := by
  simp only [processPath]
  split
  · exact h
  · exact dedup_queueLeafLink fails asin path _ (dedup_processSegments fails none path s h)

lemma dedup_processSimilar (fails : FailModel) (asin sim : String) (s : LoadState)
    (h : DedupInv s) : DedupInv (processSimilar fails asin sim s) := by
  simp only [processSimilar]
  split
  · exact h
  · split
    · exact h
    · next hm =>
      exact (dedupInv_queueWithFlush_iff _ _ _ _).mpr (dedupCore_sim h _ _ hm)

lemma dedup_queueCustomer (fails : FailModel) (cust : String) (s : LoadState)
    (h : DedupInv s) : DedupInv (queueCustomer fails cust s) := by
  simp only [queueCustomer]
  split
  · exact h
  · next hm =>
    exact (dedupInv_queueWithFlush_iff _ _ _ _).mpr (dedupCore_cust h _ hm)

lemma dedup_queueReviewRow (fails : FailModel) (asin : String) (rev : ReviewEntry)
    (s : LoadState) (h : DedupInv s) : DedupInv (queueReviewRow fails asin rev s) := by
  simp only [queueReviewRow]
  split
  · exact h
  · split
    · exact h
    · next hm =>
      exact (dedupInv_queueWithFlush_iff _ _ _ _).mpr (dedupCore_rev h _ _ _ _ _ _ hm)

lemma dedup_processReview (fails : FailModel) (asin : String) (rev : ReviewEntry)
    (s : LoadState) (h : DedupInv s) : DedupInv (processReview fails asin rev s) := by
  simp only [processReview]
  split
  · exact h
  · exact dedup_queueReviewRow fails asin rev _ (dedup_queueCustomer fails rev.customer s h)

lemma dedup_insertProduct (fails : FailModel) (p : ProductData) (s : LoadState)
    (h : DedupInv s) : DedupInv (insertProduct fails p s) := by
  simp only [insertProduct]
  split
  · exact h
  · apply foldl_preserve _ (fun st rev hst => dedup_processReview fails _ rev st hst)
    apply foldl_preserve _ (fun st sim hst => dedup_processSimilar fails _ sim st hst)
    apply foldl_preserve _ (fun st path hst => dedup_processPath fails _ path st hst)
    exact dedup_queueProductRow fails _ s h

lemma dedup_flushTable (fails : FailModel) (t : Table) (s : LoadState)
    (h : DedupInv s) : DedupInv (flushTable fails t s) := by
  rw [DedupInv, flushTable_appends, flushTable_insProducts, flushTable_insCategories,
    flushTable_insCustomers, flushTable_insProductCategories, flushTable_insSimilars,
    flushTable_insReviews]
  exact h

lemma dedup_init : DedupInv initState := by
  refine ⟨?_, ?_, ?_, ?_, ?_, ?_, ?_, ?_, ?_, ?_, ?_, ?_⟩ <;> simp [initState]

/-- The deduplication invariant holds in the state reached by the
file-processing loop (for any failure model) and survives the final flush. -/
lemma runLoad_dedup (fails : FailModel) (lines : List String) (st : LoadState)
    (h : runLoad fails lines = some st) : DedupInv st := by
  rw [runLoad] at h
  obtain ⟨st0, h0, rfl⟩ := Option.map_eq_some'.mp h
  have hd : DedupInv st0 :=
    mainLoop_preserve fails (fun p s hp => dedup_insertProduct fails p s hp)
      lines Mode.normal none initState st0 h0 dedup_init
  exact foldl_preserve _ (fun stx t hx => dedup_flushTable fails t stx hx) tableOrder st0 hd

lemma mainLoop_dedup (fails : FailModel) (lines : List String) (st : LoadState)
    (h : mainLoop fails lines Mode.normal none initState = some st) : DedupInv st :=
  mainLoop_preserve fails (fun p s hp => dedup_insertProduct fails p s hp)
    lines Mode.normal none initState st h dedup_init

/-! ## Final-table membership lemmas -/

lemma tableTrace_cons (t' : Table) (x : Table × Row) (xs : List (Table × Row)) :
    tableTrace t' (x :: xs) =
      if x.1 = t' then x.2 :: tableTrace t' xs else tableTrace t' xs := by
  by_cases h : x.1 = t' <;> simp [tableTrace, List.filterMap_cons, h]

lemma mem_keepFirstByAux_id {β : Type} [DecidableEq β] (l : List β) (seen : List β)
    (x : β) : x ∈ keepFirstByAux id l seen ↔ x ∈ l ∧ x ∉ seen := by
  induction l generalizing seen with
  | nil => simp [keepFirstByAux]
  | cons a as ih =>
    simp only [keepFirstByAux, id]
    split
    · next h =>
      rw [ih]
      constructor
      · rintro ⟨hx, hxs⟩
        exact ⟨List.mem_cons_of_mem _ hx, hxs⟩
      · rintro ⟨hx, hxs⟩
        rcases List.mem_cons.mp hx with rfl | hx
        · exact absurd h hxs
        · exact ⟨hx, hxs⟩
    · next h =>
      simp only [List.mem_cons]
      rw [ih]
      constructor
      · rintro (rfl | ⟨hx, hxs⟩)
        · exact ⟨Or.inl rfl, h⟩
        · exact ⟨Or.inr hx, fun hxseen => hxs (List.mem_cons_of_mem _ hxseen)⟩
      · rintro ⟨rfl | hx, hxs⟩
        · exact Or.inl rfl
        · by_cases hxa : x = a
          · exact Or.inl hxa
          · exact Or.inr ⟨hx, by simp [List.mem_cons, hxa, hxs]⟩


lemma mem_keepFirstBy_id {β : Type} [DecidableEq β] (l : List β) (x : β) :
    x ∈ keepFirstBy id l ↔ x ∈ l := by
  rw [keepFirstBy, mem_keepFirstByAux_id]
  simp

lemma keepFirstByAux_of_nodup {β κ : Type} [DecidableEq κ] (key : β → κ)
    (l : List β) (seen : List κ) (hn : (l.map key).Nodup)
    (hs : ∀ x ∈ l, key x ∉ seen) : keepFirstByAux key l seen = l := by
  induction l generalizing seen with
  | nil => rfl
  | cons a as ih =>
    have hn2 : key a ∉ as.map key ∧ (as.map key).Nodup := by
      rw [List.map_cons, List.nodup_cons] at hn
      exact hn
    rw [keepFirstByAux, if_neg (hs a (List.mem_cons_self a as))]
    congr 1
    apply ih _ hn2.2
    intro x hx
    simp only [List.mem_cons]
    rintro (hk | hk)
    · exact hn2.1 (hk ▸ List.mem_map_of_mem key hx)
    · exact hs x (List.mem_cons_of_mem _ hx) hk

lemma keepLastBy_of_nodup {β κ : Type} [DecidableEq κ] (key : β → κ)
    (l : List β) (hn : (l.map key).Nodup) : keepLastBy key l = l := by
  rw [keepLastBy, keepFirstBy, keepFirstByAux_of_nodup]
  · exact List.reverse_reverse l
  · rw [List.map_reverse]
    exact List.nodup_reverse.mpr hn
  · simp

lemma mem_simPairs (a b : String) (l : List (Table × Row)) :
    (a, b) ∈ simPairs l ↔ (Table.product_similar, Row.similar a b) ∈ l := by
  rw [simPairs, List.mem_filterMap]
  constructor
  · rintro ⟨⟨t, r⟩, hx, hf⟩
    cases t <;> cases r <;> simp_all
  · intro h
    exact ⟨_, h, rfl⟩

lemma mem_catRows (c : Int) (n : String) (pid : Option Int) (l : List (Table × Row)) :
    (c, n, pid) ∈ catRows l ↔ (Table.category, Row.category c n pid) ∈ l := by
  rw [catRows, List.mem_filterMap]
  constructor
  · rintro ⟨⟨t, r⟩, hx, hf⟩
    cases t <;> cases r <;> simp_all
  · intro h
    exact ⟨_, h, rfl⟩

/-- `simPairs` only looks at the `product_similar` part of the insert list. -/
lemma simPairs_factor (l : List (Table × Row)) :
    simPairs l = (tableTrace Table.product_similar l).filterMap
      (fun r => match r with | Row.similar a b => some (a, b) | _ => none) := by
  induction l with
  | nil => rfl
  | cons x xs ih =>
    obtain ⟨t, r⟩ := x
    rw [simPairs, List.filterMap_cons, tableTrace_cons] at *
    cases t <;> cases r <;> simpa [simPairs] using ih

/-- `catRows` only looks at the `category` part of the insert list. -/
lemma catRows_factor (l : List (Table × Row)) :
    catRows l = (tableTrace Table.category l).filterMap
      (fun r => match r with | Row.category c n pid => some (c, n, pid) | _ => none) := by
  induction l with
  | nil => rfl
  | cons x xs ih =>
    obtain ⟨t, r⟩ := x
    rw [catRows, List.filterMap_cons, tableTrace_cons] at *
    cases t <;> cases r <;> simpa [catRows] using ih

/-- The category-key trace is the first projection of `catRows`. -/
lemma catRows_map_fst (l : List (Table × Row)) :
    (catRows l).map (fun r => r.1) = l.filterMap keyCat := by
  induction l with
  | nil => rfl
  | cons x xs ih =>
    obtain ⟨t, r⟩ := x
    rw [catRows, List.filterMap_cons, List.filterMap_cons] at *
    cases t <;> cases r <;> simpa [catRows, keyCat] using ih

/-- Splitting the segment loop at an arbitrary point: the tail is processed
with the last segment of the initial part as predecessor. -/
lemma processSegments_append (fails : FailModel) (l1 l2 : List (String × String))
    (prev : Option String) (s : LoadState) :
    processSegments fails prev (l1 ++ l2) s =
      processSegments fails (l1.foldl (fun _ x => some x.2) prev) l2
        (processSegments fails prev l1 s) := by
  induction l1 generalizing prev s with
  | nil => rfl
  | cons seg rest ih =>
    rw [List.cons_append]
    show processSegments fails (some seg.2) (rest ++ l2) (stepSeg fails prev seg s) = _
    rw [ih]
    rfl

/-- Queueing the row that makes a buffer reach `BATCH_SIZE` triggers a flush
of that table, leaving its buffer empty. -/
lemma queueWithFlush_get_self_full (fails : FailModel) (t : Table) (r : Row)
    (s : LoadState) (h : BATCH_SIZE ≤ (s.buffers.get t).length + 1) :
    (queueWithFlush fails t r s).buffers.get t = [] := by
  have hc : (({ s with
      buffers := s.buffers.set t (s.buffers.get t ++ [r])
      appends := s.appends ++ [(t, r)] } : LoadState).buffers).get t =
      s.buffers.get t ++ [r] := TableMap.get_set_self _ _ _
  simp only [queueWithFlush]
  rw [hc, if_pos (by simpa using h)]
  exact flushTable_get_self _ _ _

/-! ## Claim theorems -/

/-- C1, counterexample.  The claim states that a pair `(A, B)` is in the
final `product_similar` table only if `A ≠ B`.  On the stream
`Id: 1 / ASIN: A / similar: 1 A` the run completes and the final table is
exactly `[("A", "A")]`: the self-pair (endpoint equal to itself, recorded by
the second conjunct) is persisted — the loader never discards self-pairs. -/
theorem C1_counterexample :
    (runLoad noFail streamSelfPair).map
      (fun st => finalSimilarTable st.db) = some [("A", "A")] ∧
    ("A" : String) = "A" :=
  ⟨by decide, rfl⟩

/-- C1, amended.  In a completed run without insert failures, a pair
`(A, B)` is present in the final `product_similar` table iff it was enqueued
to the `product_similar` buffer during the run (declared by some record with
source asin `A`, target `B`) and both `A` and `B` are asins of the final
`product` table.  Self-pairs are not discarded; pairs with an endpoint never
seen as a product are removed by the post-load `DELETE` statements. -/
theorem C1_amended (lines : List String) (st : LoadState) (A B : String)
    (h : runLoad noFail lines = some st) :
    (A, B) ∈ finalSimilarTable st.db ↔
      ((Table.product_similar, Row.similar A B) ∈ st.appends ∧
        A ∈ prodAsins st.db ∧ B ∈ prodAsins st.db) := by
  have htr := runLoad_trace lines st h Table.product_similar
  have hsim : simPairs st.db = simPairs st.appends := by
    rw [simPairs_factor st.db, simPairs_factor st.appends, htr]
  rw [finalSimilarTable, List.mem_filter, mem_keepFirstBy_id, hsim, mem_simPairs]
  simp [Bool.and_eq_true, and_assoc]

/-- C1, witness for the amended theorem at the self-pair stream. -/
theorem C1_witness :
    runLoad noFail streamSelfPair = some (runLoadState streamSelfPair) ∧
    (("A", "A") ∈ finalSimilarTable (runLoadState streamSelfPair).db ↔
      ((Table.product_similar, Row.similar "A" "A") ∈ (runLoadState streamSelfPair).appends ∧
        "A" ∈ prodAsins (runLoadState streamSelfPair).db ∧
        "A" ∈ prodAsins (runLoadState streamSelfPair).db)) :=
  ⟨by decide,
    C1_amended streamSelfPair (runLoadState streamSelfPair) "A" "A" (by decide)⟩

/-- C2, counterexample.  The claim states that a pair whose target has not
yet been inserted as a product is *not* enqueued but held in a pending map.
On `Id: 1 / ASIN: A / similar: 1 B` (target `B` never seen), after the
file-processing loop the `product_similar` buffer already holds the pair
`(A, B)` while the set of inserted products is `["A"]` only: the pair was
enqueued immediately, and no pending map exists. -/
theorem C2_counterexample :
    (mainLoop noFail streamDangling Mode.normal none initState).map
      (fun st => (st.buffers.get Table.product_similar, st.insProducts)) =
      some ([Row.similar "A" "B"], ["A"]) := by decide

/-- C2, amended.  A declared similarity pair is enqueued immediately when
the declaring record is processed, regardless of whether the target has been
observed (there is no pending map); referential integrity is restored only
by the post-load `DELETE`s, so in any completed run every pair of the final
`product_similar` table has both endpoints present as products. -/
theorem C2_amended (fails : FailModel) (asin sim : String) (s : LoadState)
    (lines : List String) (st : LoadState) (A B : String)
    (h1 : sim.isEmpty = false) (h2 : (asin, sim) ∉ s.insSimilars)
    (h3 : runLoad fails lines = some st) (h4 : (A, B) ∈ finalSimilarTable st.db) :
    (processSimilar fails asin sim s).appends =
      s.appends ++ [(Table.product_similar, Row.similar asin sim)] ∧
    A ∈ prodAsins st.db ∧ B ∈ prodAsins st.db := by
  refine ⟨?_, ?_⟩
  · rw [processSimilar, if_neg (by simp [h1]), if_neg h2]
    exact queueWithFlush_appends _ _ _ _
  · rw [finalSimilarTable, List.mem_filter] at h4
    have h5 := h4.2
    simp only [Bool.and_eq_true, decide_eq_true_eq] at h5
    exact h5

/-- C2, witness for the amended theorem at the self-pair stream. -/
theorem C2_witness :
    ("A" : String).isEmpty = false ∧
    (("A", "A") ∉ initState.insSimilars) ∧
    runLoad noFail streamSelfPair = some (runLoadState streamSelfPair) ∧
    (("A", "A") ∈ finalSimilarTable (runLoadState streamSelfPair).db) ∧
    ((processSimilar noFail "A" "A" initState).appends =
      initState.appends ++ [(Table.product_similar, Row.similar "A" "A")] ∧
    "A" ∈ prodAsins (runLoadState streamSelfPair).db ∧
    "A" ∈ prodAsins (runLoadState streamSelfPair).db) :=
  ⟨by decide, by decide, by decide, by decide,
    C2_amended noFail "A" "A" initState streamSelfPair (runLoadState streamSelfPair) "A" "A"
      (by decide) (by decide) (by decide) (by decide)⟩

/-- C3, counterexample.  The claim states that a discontinued record keeps
`group`, `salesrank` and the review statistics as nulls.  On
`Id: 1 / ASIN: A / discontinued product` the persisted product row is
`("A", "Discontinued product", "Unknown", 0, 0, 0, 0.0)`: the `group` is the
placeholder `"Unknown"` and the numeric fields are `0` — no null is
preserved, because the loader has no discontinued flag at all. -/
theorem C3_counterexample :
    (runLoad noFail streamDiscontinued).map
      (fun st => finalProductTable st.db) =
      some [("A", "Discontinued product", "Unknown", 0, 0, 0, ⟨0, 0⟩)] := by decide

/-- C3, amended.  A line case-insensitively starting with
`discontinued product` only sets the title to the fixed placeholder
`"Discontinued product"`; no discontinued flag exists, and default-filling
is unchanged: a record with absent `group`, `salesrank` and review
statistics is persisted with `"Unknown"`, `0`, `0`, `0`, `0.0`. -/
theorem C3_amended (fails : FailModel) (raw : String) (rest : List String)
    (p : ProductData) (s : LoadState) (a : String)
    (hne : (pyStrip raw).isEmpty = false)
    (hid : startsWithPy "Id:" (pyStrip raw) = false)
    (hasin : startsWithPy "ASIN:" (pyStrip raw) = false)
    (htitle : startsWithPy "title:" (pyStrip raw) = false)
    (hdisc : startsWithPy "discontinued product" (toLowerPy (pyStrip raw)) = true)
    (ha : a.isEmpty = false) :
    mainLoop fails (raw :: rest) Mode.normal (some p) s =
      mainLoop fails rest Mode.normal
        (some { p with title := some "Discontinued product" }) s ∧
    ensureProductDefaults
      { asin := some a, title := some "Discontinued product", group := none,
        salesrank := none, total_reviews := none, downloaded := none,
        avg_rating := none, categories := p.categories, similar := p.similar,
        reviews := p.reviews } =
      some (a, "Discontinued product", "Unknown", 0, 0, 0, ⟨0, 0⟩) := by
  constructor
  · have hd : dispatchLine (pyStrip raw) p =
        some (Mode.normal, { p with title := some "Discontinued product" }) := by
      rw [dispatchLine, if_neg (by simp [hasin]), if_neg (by simp [htitle]), if_pos hdisc]
    show (if (pyStrip raw).isEmpty then mainLoop fails rest Mode.normal (some p) s
      else if startsWithPy "Id:" (pyStrip raw) then
        mainLoop fails rest Mode.normal (some newProductData) (insertProduct fails p s)
      else match dispatchLine (pyStrip raw) p with
        | none => none
        | some (m, p1) => mainLoop fails rest m (some p1) s) = _
    rw [if_neg (by simp [hne]), if_neg (by simp [hid]), hd]
  · rw [ensureProductDefaults]
    simp only [Option.getD_none]
    rw [if_neg (by simp [ha])]
    rfl

/-- C3, witness at the concrete line `discontinued product`. -/
theorem C3_witness :
    (pyStrip "discontinued product").isEmpty = false ∧
    startsWithPy "Id:" (pyStrip "discontinued product") = false ∧
    startsWithPy "ASIN:" (pyStrip "discontinued product") = false ∧
    startsWithPy "title:" (pyStrip "discontinued product") = false ∧
    startsWithPy "discontinued product" (toLowerPy (pyStrip "discontinued product")) = true ∧
    ("A" : String).isEmpty = false ∧
    (mainLoop noFail ["discontinued product"] Mode.normal (some newProductData) initState =
      mainLoop noFail [] Mode.normal
        (some { newProductData with title := some "Discontinued product" }) initState ∧
    ensureProductDefaults
      { asin := some "A", title := some "Discontinued product", group := none,
        salesrank := none, total_reviews := none, downloaded := none,
        avg_rating := none, categories := newProductData.categories,
        similar := newProductData.similar, reviews := newProductData.reviews } =
      some ("A", "Discontinued product", "Unknown", 0, 0, 0, ⟨0, 0⟩)) :=
  ⟨by decide, by decide, by decide, by decide, by decide, by decide,
    C3_amended noFail "discontinued product" [] newProductData initState "A"
      (by decide) (by decide) (by decide) (by decide) (by decide) (by decide)⟩

/-- C4, counterexample.  The claim states that when the same category id
occurs with two different names, the persisted name is that of the *last*
occurrence.  On a stream whose two records carry paths `|Books[1]` and then
`|Livros[1]`, the final `category` table is `[(1, "Books", none)]`: the
first-seen name `"Books"` is persisted, not the last-seen `"Livros"`
(the run-scoped dedup set prevents the second occurrence from ever being
sent, so the SQL last-wins upsert never fires within a run). -/
theorem C4_counterexample :
    (runLoad noFail streamTwoNames).map
      (fun st => finalCategoryTable st.db) = some [(1, "Books", none)] ∧
    ("Books" : String) ≠ "Livros" :=
  ⟨by decide, by decide⟩

/-- C4, amended.  In a completed run without insert failures each category
id is inserted at most once (the appended category keys are pairwise
distinct), and the persisted name/parent for an id are exactly those of the
single (first-seen) occurrence that was enqueued. -/
theorem C4_amended (lines : List String) (st : LoadState)
    (h : runLoad noFail lines = some st) :
    (st.appends.filterMap keyCat).Nodup ∧
    (∀ (c : Int) (n : String) (pid : Option Int),
      (c, n, pid) ∈ finalCategoryTable st.db ↔
        (Table.category, Row.category c n pid) ∈ st.appends) := by
  have hd := runLoad_dedup noFail lines st h
  refine ⟨hd.cN, ?_⟩
  have htr := runLoad_trace lines st h Table.category
  have hcat : catRows st.db = catRows st.appends := by
    rw [catRows_factor st.db, catRows_factor st.appends, htr]
  have hnod : ((catRows st.db).map (fun r => r.1)).Nodup := by
    rw [hcat, catRows_map_fst]
    exact hd.cN
  intro c n pid
  rw [finalCategoryTable, keepLastBy_of_nodup _ _ hnod, hcat, mem_catRows]

/-- C4, witness for the amended theorem at the two-name stream. -/
theorem C4_witness :
    runLoad noFail streamTwoNames = some (runLoadState streamTwoNames) ∧
    (((runLoadState streamTwoNames).appends.filterMap keyCat).Nodup ∧
    (∀ (c : Int) (n : String) (pid : Option Int),
      (c, n, pid) ∈ finalCategoryTable (runLoadState streamTwoNames).db ↔
        (Table.category, Row.category c n pid) ∈ (runLoadState streamTwoNames).appends)) :=
  ⟨by decide, C4_amended streamTwoNames (runLoadState streamTwoNames) (by decide)⟩

/-- C5, counterexample.  The claim states that a non-numeric declared count
is treated as `0` and *no* identifiers are taken.  On
`Id: 0 / ASIN: P / similar: x A B` (count token `x` non-numeric), the
appended `product_similar` pairs are `("P", "A")` and `("P", "B")`: all
remaining tokens are taken as identifiers. -/
theorem C5_counterexample :
    (mainLoop noFail streamNonNumericCount Mode.normal none initState).map
      (fun st => st.appends.filterMap keySim) = some [("P", "A"), ("P", "B")] := by decide

/-- C5, amended.  On a `similar:` line, the second token is the declared
count `N`: if `N` parses as a positive integer, exactly the next `N` tokens
are taken; if `N` is non-numeric it normalises to `0` and *all* tokens after
the count position are taken; with fewer than two tokens, no identifiers are
taken (the record's similar list is left unchanged). -/
theorem C5_amended (w n k : String) (toks : List String)
    (hn : parseIntPy n = none) (hk : 0 < normalizeInt k) :
    normalizeInt n = 0 ∧
    parseSimilarFromParts (w :: n :: toks) = some toks ∧
    parseSimilarFromParts (w :: k :: toks) = some (toks.take (normalizeInt k).toNat) ∧
    parseSimilarFromParts [w] = none := by
  have h0 : normalizeInt n = 0 := by rw [normalizeInt, hn]; rfl
  refine ⟨h0, ?_, ?_, rfl⟩
  · rw [parseSimilarFromParts, h0]
    simp
  · rw [parseSimilarFromParts, if_pos hk]

/-- C5, witness at the tokens of the line `similar: x A B`. -/
theorem C5_witness :
    parseIntPy "x" = none ∧ 0 < normalizeInt "1" ∧
    (normalizeInt "x" = 0 ∧
    parseSimilarFromParts ["similar:", "x", "A", "B"] = some ["A", "B"] ∧
    parseSimilarFromParts ["similar:", "1", "A", "B"] =
      some (["A", "B"].take (normalizeInt "1").toNat) ∧
    parseSimilarFromParts ["similar:"] = none) :=
  ⟨by decide, by decide, C5_amended "similar:" "x" "1" ["A", "B"] (by decide) (by decide)⟩

/-- C6, counterexample.  Two parts.  First, on a full record the final
flush writes the tables in the order `product, category, product_category,
customer, review` (the dict insertion order of the insert statements) — not
the claimed order `product, category, customer, review, product-category`;
the second conjunct records that these orders differ.  Second, a
threshold-triggered flush of `product_similar` does not first force-flush
its dependency `product`: queueing the 5000th similarity row flushes the
similarity buffer alone, leaving the non-empty product buffer untouched. -/
theorem C6_counterexample :
    (runLoad noFail streamFullRecord).map (fun st => st.db.map Prod.fst) =
      some [Table.product, Table.category, Table.product_category,
        Table.customer, Table.review] ∧
    [Table.product, Table.category, Table.product_category,
      Table.customer, Table.review] ≠
      [Table.product, Table.category, Table.customer, Table.review,
        Table.product_category] ∧
    (queueWithFlush noFail Table.product_similar (Row.similar "A" "C")
        { initState with buffers :=
            ⟨[Row.product "P" "T" "G" 0 0 0 ⟨0, 0⟩], [], [], [], [],
              List.replicate 4999 (Row.similar "A" "B")⟩ }).buffers.get Table.product =
      [Row.product "P" "T" "G" 0 0 0 ⟨0, 0⟩] ∧
    (queueWithFlush noFail Table.product_similar (Row.similar "A" "C")
        { initState with buffers :=
            ⟨[Row.product "P" "T" "G" 0 0 0 ⟨0, 0⟩], [], [], [], [],
              List.replicate 4999 (Row.similar "A" "B")⟩ }).buffers.get Table.product_similar =
      [] :=
  ⟨by decide, by decide,
    by
      rw [queueWithFlush_get_ne noFail Table.product_similar Table.product
        (Row.similar "A" "C") _ (by decide)]
      rfl,
    queueWithFlush_get_self_full noFail Table.product_similar (Row.similar "A" "C") _
      (by
        show BATCH_SIZE ≤ (List.replicate 4999 (Row.similar "A" "B")).length + 1
        rw [List.length_replicate]
        decide)⟩

/-- C6, amended.  A threshold-triggered flush touches only the table whose
buffer reached the threshold — no dependency table is force-flushed — and
the final flush visits the tables in the fixed order `product, category,
product_category, customer, review, product_similar`. -/
theorem C6_amended (fails : FailModel) (t t' : Table) (r : Row) (s : LoadState)
    (h : t' ≠ t) :
    (queueWithFlush fails t r s).buffers.get t' = s.buffers.get t' ∧
    finalFlush fails s =
      flushTable fails Table.product_similar (flushTable fails Table.review
        (flushTable fails Table.customer (flushTable fails Table.product_category
          (flushTable fails Table.category (flushTable fails Table.product s))))) :=
  ⟨queueWithFlush_get_ne fails t t' r s h, rfl⟩

/-- C6, witness: the queueing table `product_similar` and the observed
table `product` differ, so the product buffer is untouched. -/
theorem C6_witness :
    Table.product ≠ Table.product_similar ∧
    ((queueWithFlush noFail Table.product_similar (Row.similar "A" "B")
        initState).buffers.get Table.product = initState.buffers.get Table.product ∧
    finalFlush noFail initState =
      flushTable noFail Table.product_similar (flushTable noFail Table.review
        (flushTable noFail Table.customer (flushTable noFail Table.product_category
          (flushTable noFail Table.category (flushTable noFail Table.product initState)))))) :=
  ⟨by decide,
    C6_amended noFail Table.product_similar Table.product (Row.similar "A" "B")
      initState (by decide)⟩

/-- C7, confirmed.  When the whole-batch insert of a flush fails (some row
of the batch raises), the engine retries row by row under nested
savepoints: the database gains exactly the non-failing rows of the batch in
order, the table's running count grows by exactly the number of non-failing
rows, and the buffer is cleared — so exactly the failing rows are lost and
every other row of the batch persists. -/
theorem C7_flush_fallback (fails : FailModel) (t : Table) (s : LoadState)
    (h : (s.buffers.get t).any (fun r => fails t r) = true) :
    (flushTable fails t s).db =
      s.db ++ ((s.buffers.get t).filter (fun r => !(fails t r))).map (fun r => (t, r)) ∧
    (flushTable fails t s).counts.get t =
      s.counts.get t + ((s.buffers.get t).filter (fun r => !(fails t r))).length ∧
    (flushTable fails t s).buffers.get t = [] :=
  ⟨flushTable_db fails t s, flushTable_counts_self fails t s,
    flushTable_get_self fails t s⟩

/-- C7, witness: a three-row customer batch whose middle row fails keeps
exactly the other two rows and counts 2. -/
theorem C7_witness :
    (({ initState with buffers :=
        ⟨[], [], [], [Row.customer "C1", Row.customer "BAD", Row.customer "C2"],
          [], []⟩ } : LoadState).buffers.get Table.customer).any
      (fun r => (fun _ r' => decide (r' = Row.customer "BAD")) Table.customer r) = true ∧
    ((flushTable (fun _ r' => decide (r' = Row.customer "BAD")) Table.customer
        { initState with buffers :=
          ⟨[], [], [], [Row.customer "C1", Row.customer "BAD", Row.customer "C2"],
            [], []⟩ }).db =
      ({ initState with buffers :=
          ⟨[], [], [], [Row.customer "C1", Row.customer "BAD", Row.customer "C2"],
            [], []⟩ } : LoadState).db ++
        ((({ initState with buffers :=
            ⟨[], [], [], [Row.customer "C1", Row.customer "BAD", Row.customer "C2"],
              [], []⟩ } : LoadState).buffers.get Table.customer).filter
          (fun r => !((fun _ r' => decide (r' = Row.customer "BAD")) Table.customer r))).map
            (fun r => (Table.customer, r)) ∧
    (flushTable (fun _ r' => decide (r' = Row.customer "BAD")) Table.customer
        { initState with buffers :=
          ⟨[], [], [], [Row.customer "C1", Row.customer "BAD", Row.customer "C2"],
            [], []⟩ }).counts.get Table.customer =
      ({ initState with buffers :=
          ⟨[], [], [], [Row.customer "C1", Row.customer "BAD", Row.customer "C2"],
            [], []⟩ } : LoadState).counts.get Table.customer +
        ((({ initState with buffers :=
            ⟨[], [], [], [Row.customer "C1", Row.customer "BAD", Row.customer "C2"],
              [], []⟩ } : LoadState).buffers.get Table.customer).filter
          (fun r => !((fun _ r' => decide (r' = Row.customer "BAD")) Table.customer r))).length ∧
    (flushTable (fun _ r' => decide (r' = Row.customer "BAD")) Table.customer
        { initState with buffers :=
          ⟨[], [], [], [Row.customer "C1", Row.customer "BAD", Row.customer "C2"],
            [], []⟩ }).buffers.get Table.customer = []) :=
  ⟨by decide,
    C7_flush_fallback (fun _ r' => decide (r' = Row.customer "BAD")) Table.customer
      { initState with buffers :=
        ⟨[], [], [], [Row.customer "C1", Row.customer "BAD", Row.customer "C2"],
          [], []⟩ } (by decide)⟩

/-- C8, confirmed.  On a record with a `categories: 1` block whose single
path line is `|Books[1]|Fiction[2]`, the rows enqueued are exactly the two
category rows `(1, Books, null)` and `(2, Fiction, parent 1)` plus the one
`product_category` row linking the product to the leaf id `2` only — no
link row for the intermediate segment. -/
theorem C8_roundtrip :
    (mainLoop noFail streamRoundTrip Mode.normal none initState).map
      (fun st => (tableTrace Table.category st.appends,
        tableTrace Table.product_category st.appends)) =
      some ([Row.category 1 "Books" none, Row.category 2 "Fiction" (some 1)],
        [Row.product_category "X" 2]) := by decide

/-- C9, confirmed.  After processing any line stream (in particular any
prefix of an input), for each of the six logical keys — product asin,
category id, customer id, `(asin, category_id)`, `(asin, similar_asin)`,
`(asin, customer_id, review_date)` — at most one row with that key was ever
appended to the corresponding buffer: the key traces are duplicate-free,
enforced by the run-scoped membership sets. -/
theorem C9_at_most_once (fails : FailModel) (lines : List String) (st : LoadState)
    (h : mainLoop fails lines Mode.normal none initState = some st) :
    (st.appends.filterMap keyProd).Nodup ∧ (st.appends.filterMap keyCat).Nodup ∧
    (st.appends.filterMap keyCust).Nodup ∧ (st.appends.filterMap keyPC).Nodup ∧
    (st.appends.filterMap keySim).Nodup ∧ (st.appends.filterMap keyRev).Nodup := by
  have hd := mainLoop_dedup fails lines st h
  exact ⟨hd.pN, hd.cN, hd.uN, hd.pcN, hd.sN, hd.rN⟩

/-- C9, witness at a full record exercising every table. -/
theorem C9_witness :
    mainLoop noFail streamFullRecord Mode.normal none initState =
      some (mainLoopState streamFullRecord) ∧
    (((mainLoopState streamFullRecord).appends.filterMap keyProd).Nodup ∧
    ((mainLoopState streamFullRecord).appends.filterMap keyCat).Nodup ∧
    ((mainLoopState streamFullRecord).appends.filterMap keyCust).Nodup ∧
    ((mainLoopState streamFullRecord).appends.filterMap keyPC).Nodup ∧
    ((mainLoopState streamFullRecord).appends.filterMap keySim).Nodup ∧
    ((mainLoopState streamFullRecord).appends.filterMap keyRev).Nodup) :=
  ⟨by decide,
    C9_at_most_once noFail streamFullRecord (mainLoopState streamFullRecord) (by decide)⟩

/-- C10, confirmed.  For a path decomposed as `pre ++ a :: b :: post`, the
segment loop processes `b` with the id string of the immediately preceding
segment `a` as predecessor, and then processes `post` with `b`'s own id
string as predecessor (even when `b` emits no row).  One segment step for
`b` appends exactly: nothing when `b`'s id is not a nonempty digit string or
its id was already seen, and otherwise one category row whose `parent_id`
is `parentOfPrev` of the predecessor — the digit value of the immediately
preceding segment's id when that id is a nonempty digit string, and null
otherwise (never the id of an earlier ancestor). -/
theorem C10_parent_rule (fails : FailModel) (prev : Option String) (s : LoadState)
    (pre post : List (String × String)) (a b : String × String) :
    processSegments fails prev (pre ++ a :: b :: post) s =
      processSegments fails (some b.2) post
        (stepSeg fails (some a.2) b (processSegments fails prev (pre ++ [a]) s)) ∧
    (∀ (pv : Option String) (st : LoadState),
      (stepSeg fails pv b st).appends = st.appends ++
        (if pyIsDigitS b.2 = true ∧ ((digitsVal b.2 : Int)) ∉ st.insCategories then
          [(Table.category, Row.category ((digitsVal b.2 : Int)) b.1 (parentOfPrev pv))]
        else [])) := by
  constructor
  · have hsplit : pre ++ a :: b :: post = (pre ++ [a]) ++ (b :: post) := by simp
    rw [hsplit, processSegments_append]
    have hlast : (pre ++ [a]).foldl (fun _ x => some x.2) prev = some a.2 := by
      rw [List.foldl_append]
      rfl
    rw [hlast]
    rfl
  · intro pv st
    by_cases hdig : pyIsDigitS b.2 = true
    · by_cases hmem : ((digitsVal b.2 : Int)) ∈ st.insCategories
      · simp [stepSeg, hdig, hmem]
      · simp [stepSeg, hdig, hmem, queueWithFlush_appends]
    · have hdig2 : pyIsDigitS b.2 = false := by simpa using hdig
      simp [stepSeg, hdig2]

end TP1
